import Mathlib

/-!
# dagger-venom: a verification development

`src/main.go` defines two functions of a Dagger module:

* `Venom` builds a container image holding the Venom CLI;
* `Test` runs that CLI against a caller-supplied directory and returns the
  results directory together with the captured exit code.

The Dagger engine, `modfile.ParseLax` and the Go runtime constants are
collaborators of the program: their results are taken as parameters
(`World`).  The Go standard-library functions the program calls on data
(`fmt.Errorf` with `%w`, `errors.Is`, `filepath.Join`, `strconv.Atoi`) are
written out after their Go definitions, and the `/bin/sh` fragment used by the
command line of `Test` is written out after the POSIX shell rules it relies on.
-/

namespace DaggerVenom

/-! ## Go values -/

/-- The contents of a file as a Go `string`: a sequence of bytes, each below 256. -/
abbrev Bytes := List Nat

/-- The UTF-8 bytes of a sequence of characters. -/
def utf8 (cs : List Char) : Bytes :=
  cs.flatMap fun c => (String.utf8EncodeChar c).map UInt8.toNat

/-- The bytes of a text (its UTF-8 encoding). -/
def bytes (s : String) : Bytes := utf8 s.data

/-- Go `error` values.  `errorString` is a leaf error held through a pointer (an
`errors.New` value or a leaf error of a collaborator); its `id` stands for the
identity of the value.  `ErrorList` is a `modfile.ErrorList`, the type of every
error `modfile.ParseLax` returns: a slice of errors, given here by their messages;
a slice type is not comparable.  `NumError` is `*strconv.NumError`, `wrapError` is
the `*fmt.wrapError` built by `fmt.Errorf` with one `%w` verb.  A term stands for
one error value: a pointer is represented by the fields it points to, so two
occurrences of the same term are the same pointer. -/
inductive GoError where
  | errorString (id : Nat) (s : String)
  | ErrorList (errs : List String)
  | NumError (Func : String) (Num : Bytes) (Err : GoError)
  | wrapError (msg : String) (err : GoError)
deriving DecidableEq, Repr

/-- The sentinel `strconv.ErrSyntax`. -/
def ErrSyntax : GoError := .errorString 0 "invalid syntax"

/-- The sentinel `strconv.ErrRange`. -/
def ErrRange : GoError := .errorString 1 "value out of range"

/-- The method `Error()`.  `Quote` is `strconv.Quote`, used by `(*NumError).Error`;
an `ErrorList` joins the messages of its errors with newlines. -/
def GoError.Error (Quote : Bytes → String) : GoError → String
  | .errorString _ s => s
  | .ErrorList errs => String.intercalate "\n" errs
  | .NumError Func Num Err =>
      "strconv." ++ Func ++ ": parsing " ++ Quote Num ++ ": " ++ GoError.Error Quote Err
  | .wrapError msg _ => msg

/-- The method `Unwrap()`: `nil` for an error that has none. -/
def GoError.Unwrap : GoError → Option GoError
  | .errorString _ _ => none
  | .ErrorList _ => none
  | .NumError _ _ Err => some Err
  | .wrapError _ err => some err

/-- Whether the dynamic type of the error is comparable
(`reflectlite.TypeOf(target).Comparable()`): pointers are, a slice is not. -/
def GoError.comparable : GoError → Bool
  | .errorString _ _ => true
  | .ErrorList _ => false
  | .NumError _ _ _ => true
  | .wrapError _ _ => true

/-- The loop `is(err, target, targetComparable)` of package `errors`: at each error
of the `Unwrap` chain, `targetComparable && err == target`, then `Unwrap`.  None of
the error types here has an `Is` method. -/
def isLoop (target : GoError) (targetComparable : Bool) : GoError → Bool
  | .errorString id s => targetComparable && decide (GoError.errorString id s = target)
  | .ErrorList errs => targetComparable && decide (GoError.ErrorList errs = target)
  | .NumError Func Num Err =>
      (targetComparable && decide (GoError.NumError Func Num Err = target))
        || isLoop target targetComparable Err
  | .wrapError msg err =>
      (targetComparable && decide (GoError.wrapError msg err = target))
        || isLoop target targetComparable err

/-- The function `errors.Is(err, target)` for non-nil arguments: the comparison
`err == target` is made only when the type of `target` is comparable. -/
def Is (err target : GoError) : Bool := isLoop target target.comparable err

/-- The call `fmt.Errorf(text + ": %w", err)`: the message is the text, a colon and
a blank, then `err.Error()`; `Unwrap` returns `err`. -/
def Errorf (Quote : Bytes → String) (text : String) (err : GoError) : GoError :=
  .wrapError (text ++ ": " ++ err.Error Quote) err

/-- The outcome of a Go call: it returns, or it panics. -/
inductive Outcome (α : Type) where
  | returns (a : α)
  | panics (msg : String)

/-! ## `path/filepath` (Unix) -/

/-- The backtracking of `Clean` on a `..` element, after `out.w--`:
`for out.w > dotdot && out.index(out.w) != '/' { out.w-- }`. -/
def cleanBacktrack (buf : List Char) (dotdot : Nat) : Nat → Nat
  | 0 => 0
  | w + 1 =>
      if w + 1 > dotdot ∧ buf.getD (w + 1) '/' ≠ '/' then cleanBacktrack buf dotdot w
      else w + 1

/-- The main loop of `filepath.Clean`, one byte of the path per step.  `out` is
the buffer written so far (`out.w` is its length), `dotdot` the index where `..`
must stop, and `copying` tells that the loop is inside the copy of a real path
element (the inner `for ; r < n && path[r] != '/'; r++`). -/
def cleanLoop (rooted : Bool) : List Char → List Char → Nat → Bool → List Char
  | [], out, _, _ => out
  | c :: rest, out, dotdot, true =>
      if c = '/' then cleanLoop rooted rest out dotdot false
      else cleanLoop rooted rest (out ++ [c]) dotdot true
  | '/' :: rest, out, dotdot, false => cleanLoop rooted rest out dotdot false
  | ['.'], out, _, false => out
  | '.' :: '/' :: rest, out, dotdot, false => cleanLoop rooted rest out dotdot false
  | ['.', '.'], out, dotdot, false =>
      if out.length > dotdot then out.take (cleanBacktrack out dotdot (out.length - 1))
      else if !rooted then (if out.length > 0 then out ++ ['/'] else out) ++ ['.', '.']
      else out
  | '.' :: '.' :: '/' :: rest, out, dotdot, false =>
      if out.length > dotdot then
        cleanLoop rooted rest (out.take (cleanBacktrack out dotdot (out.length - 1))) dotdot false
      else if !rooted then
        let out2 := (if out.length > 0 then out ++ ['/'] else out) ++ ['.', '.']
        cleanLoop rooted rest out2 out2.length false
      else cleanLoop rooted rest out dotdot false
  | c :: rest, out, dotdot, false =>
      let out1 :=
        if (rooted ∧ out.length ≠ 1) ∨ (¬ rooted ∧ out.length ≠ 0) then out ++ ['/'] else out
      cleanLoop rooted rest (out1 ++ [c]) dotdot true

/-- The function `filepath.Clean`. -/
def Clean (path : String) : String :=
  match path.data with
  | [] => "."
  | '/' :: rest =>
      let out := cleanLoop true rest ['/'] 1 false
      if out.length = 0 then "." else String.mk out
  | cs =>
      let out := cleanLoop false cs [] 0 false
      if out.length = 0 then "." else String.mk out

/-- The function `filepath.Join`: the elements from the first non-empty one on,
joined with the separator and cleaned; the empty string when all are empty. -/
def Join : List String → String
  | [] => ""
  | e :: rest =>
      if e ≠ "" then Clean (String.intercalate "/" (e :: rest)) else Join rest

/-! ## `strconv` -/

/-- The constructor `syntaxError(fn, str)` of `strconv`. -/
def syntaxError (fn : String) (str : Bytes) : GoError := .NumError fn str ErrSyntax

/-- The constructor `rangeError(fn, str)` of `strconv`. -/
def rangeError (fn : String) (str : Bytes) : GoError := .NumError fn str ErrRange

/-- The conversion of an integer to a signed machine integer of `w` bits
(two's complement wrap-around). -/
def toSigned (w : Nat) (x : Int) : Int :=
  (x + 2 ^ (w - 1)) % 2 ^ w - 2 ^ (w - 1)

/-- The helper `lower(c)` of `strconv`: `c | ('x' - 'X')`. -/
def lower (c : Nat) : Nat := c ||| 0x20

/-- The digit loop of `strconv.ParseUint` for base 10 (so `base0` is false and the
underscore case is never taken).  Arithmetic is that of `uint64`. -/
def parseUintLoop (s0 : Bytes) (maxVal : Nat) : Bytes → Nat → Nat × Option GoError
  | [], n => (n, none)
  | c :: cs, n =>
      if 48 ≤ c ∧ c ≤ 57 then
        let d := c - 48
        if d ≥ 10 then (0, some (syntaxError "ParseUint" s0))
        else if n ≥ (2 ^ 64 - 1) / 10 + 1 then (maxVal, some (rangeError "ParseUint" s0))
        else
          let n' := n * 10 % 2 ^ 64
          let n1 := (n' + d) % 2 ^ 64
          if n1 < n' ∨ n1 > maxVal then (maxVal, some (rangeError "ParseUint" s0))
          else parseUintLoop s0 maxVal cs n1
      else if 97 ≤ lower c ∧ lower c ≤ 122 then
        let d := lower c - 97 + 10
        if d ≥ 10 then (0, some (syntaxError "ParseUint" s0))
        else (0, some (syntaxError "ParseUint" s0))
      else (0, some (syntaxError "ParseUint" s0))

/-- The function `strconv.ParseUint(s, 10, bitSize)` for `bitSize` 0 (the size of
`int`, `IntSize`) or between 1 and 64. -/
def ParseUint (IntSize : Nat) (s : Bytes) (bitSize : Nat) : Nat × Option GoError :=
  if s = [] then (0, some (syntaxError "ParseUint" s))
  else
    let bitSize := if bitSize = 0 then IntSize else bitSize
    let maxVal := (2 ^ bitSize % 2 ^ 64 + 2 ^ 64 - 1) % 2 ^ 64
    parseUintLoop s maxVal s 0

/-- The function `strconv.ParseInt(s, 10, bitSize)`.  The result is an `int64`. -/
def ParseInt (IntSize : Nat) (s : Bytes) (bitSize : Nat) : Int × Option GoError :=
  match s with
  | [] => (0, some (syntaxError "ParseInt" s))
  | c :: cs =>
      let s0 := s
      let neg := decide (c = 45)
      let s' := if c = 43 then cs else if c = 45 then cs else s
      match ParseUint IntSize s' bitSize with
      | (un, err) =>
          if err.isSome ∧ err.bind GoError.Unwrap ≠ some ErrRange then
            (0, some (syntaxError "ParseInt" s0))
          else
            let bitSize := if bitSize = 0 then IntSize else bitSize
            let cutoff := 2 ^ (bitSize - 1) % 2 ^ 64
            if ¬ neg ∧ un ≥ cutoff then
              (toSigned 64 ((cutoff : Int) - 1), some (rangeError "ParseInt" s0))
            else if neg ∧ un > cutoff then
              (toSigned 64 (- toSigned 64 cutoff), some (rangeError "ParseInt" s0))
            else
              let n := toSigned 64 un
              (if neg then toSigned 64 (- n) else n, none)

/-- The digit loop of the fast path of `strconv.Atoi`: `ch -= '0'` on a byte, then
`n = n*10 + int(ch)`.  The fast path is taken only for fewer than 19 bytes (10
when `int` has 32 bits), so `n` stays below `10 ^ 18` (`10 ^ 9`) and never wraps. -/
def atoiLoop (s0 : Bytes) : Bytes → Int → Int × Option GoError
  | [], n => (n, none)
  | ch :: cs, n =>
      let ch' := (ch + 256 - 48) % 256
      if ch' > 9 then (0, some (syntaxError "Atoi" s0))
      else atoiLoop s0 cs (n * 10 + ch')

/-- The function `strconv.Atoi`, where `int` has `IntSize` bits. -/
def Atoi (IntSize : Nat) (s : Bytes) : Int × Option GoError :=
  let sLen := s.length
  if (IntSize = 32 ∧ (0 < sLen ∧ sLen < 10)) ∨ (IntSize = 64 ∧ (0 < sLen ∧ sLen < 19)) then
    match s with
    | [] => (0, some (syntaxError "Atoi" s))
    | c :: cs =>
        let s' := if c = 45 ∨ c = 43 then cs else s
        if (c = 45 ∨ c = 43) ∧ s'.length < 1 then (0, some (syntaxError "Atoi" s))
        else
          match atoiLoop s s' 0 with
          | (n, some err) => (n, some err)
          | (n, none) => (if c = 45 then - n else n, none)
  else
    match ParseInt IntSize s 0 with
    | (i64, some (.NumError _ Num Err)) => (toSigned IntSize i64, some (.NumError "Atoi" Num Err))
    | (i64, err) => (toSigned IntSize i64, err)

/-- The decimal digits of `m`, most significant first, as bytes, in front of `acc`
(`fuel` bounds the number of digits produced). -/
def decimalCore : Nat → Nat → Bytes → Bytes
  | 0, _, acc => acc
  | fuel + 1, m, acc =>
      let acc' := (48 + m % 10) :: acc
      if m / 10 = 0 then acc' else decimalCore fuel (m / 10) acc'

/-- The decimal representation of an integer, as `strconv.Itoa` writes it: a minus
sign for a negative number, then the digits without leading zeros. -/
def decimal (n : Int) : Bytes :=
  if n < 0 then 45 :: decimalCore (n.natAbs + 1) n.natAbs []
  else decimalCore (n.natAbs + 1) n.natAbs []

/-! ## Dagger handles

The objects of the Dagger SDK are lazy handles: a handle records the chain of
calls that built it, and only `Contents` and `Sync` ask the engine for a result. -/

mutual
/-- A `*dagger.Container`; `scratch` is `dag.Container()`. -/
inductive Container where
  | scratch
  | From (c : Container) (address : String)
  | WithDirectory (c : Container) (path : String) (directory : Directory)
  | WithWorkdir (c : Container) (path : String)
  | WithExec (c : Container) (args : List String)
  | WithFile (c : Container) (path : String) (source : File)
  | WithMountedDirectory (c : Container) (path : String) (source : Directory)
  | WithEnvVariable (c : Container) (name : String) (value : String)
/-- A `*dagger.Directory`: `GitHeadTree url` is `dag.Git(url).Head().Tree()`,
`ofContainer c path` is `c.Directory(path)`, `caller id` a directory handed in by
the caller of the module. -/
inductive Directory where
  | GitHeadTree (url : String)
  | ofContainer (c : Container) (path : String)
  | caller (id : Nat)
/-- A `*dagger.File`: `ofDirectory d path` is `d.File(path)`, `ofContainer c path`
is `c.File(path)`. -/
inductive File where
  | ofDirectory (d : Directory) (path : String)
  | ofContainer (c : Container) (path : String)
end

/-- The statement `go <version>` of a parsed go.mod (`*modfile.Go`). -/
structure Go where
  Version : String

/-- The part of `*modfile.File` the program reads: the field `Go`, `nil` when the
manifest has no `go` statement. -/
structure ModFile where
  Go : Option Go

/-- What the program obtains from its collaborators: the answers of the Dagger
engine to `Contents` and `Sync`, the result of `modfile.ParseLax(file, data, nil)`,
the constants `runtime.GOOS` and `runtime.GOARCH`, the size in bits of `int`
(`strconv.IntSize`), and `strconv.Quote`. -/
structure World where
  Contents : File → Except GoError Bytes
  Sync : Container → Except GoError Container
  ParseLax : String → Bytes → Except GoError ModFile
  GOOS : String
  GOARCH : String
  IntSize : Nat
  Quote : Bytes → String

/-- The calls that leave the program, recorded in the order they are made. -/
inductive Step where
  | Contents (f : File)
  | ParseLax (file : String) (data : Bytes)
  | Sync (c : Container)
  | Atoi (s : Bytes)

/-- The panic of the Go runtime on the dereference of a nil pointer. -/
def nilDereference : String := "runtime error: invalid memory address or nil pointer dereference"

/-! ## The program (`src/main.go`) -/

/-- The source tree fetched by `Venom`: `dag.Git("https://github.com/ovh/venom").Head().Tree()`. -/
def Venom.venomSrc : Directory := .GitHeadTree "https://github.com/ovh/venom"

/-- The local `workDir` of `Venom`. -/
def Venom.workDir : String := "/venom"

/-- The method `(*DaggerVenom).Venom`: the calls made and the outcome, a pair
`(*dagger.Container, error)` or a panic. -/
def Venom (w : World) : List Step × Outcome (Option Container × Option GoError) :=
  let venomSrc := Venom.venomSrc
  let goMod := File.ofDirectory venomSrc "go.mod"
  match w.Contents goMod with
  | .error err =>
      ([.Contents goMod], .returns (none, some (Errorf w.Quote "error reading go.mod" err)))
  | .ok modContents =>
      match w.ParseLax "go.mod" modContents with
      | .error err =>
          ([.Contents goMod, .ParseLax "go.mod" modContents],
            .returns (none, some (Errorf w.Quote "error parsing go.mod" err)))
      | .ok modFile =>
          match modFile.Go with
          | none =>
              ([.Contents goMod, .ParseLax "go.mod" modContents], .panics nilDereference)
          | some go =>
              let workDir := Venom.workDir
              let build :=
                Directory.ofContainer
                  (Container.WithExec
                    (Container.WithWorkdir
                      (Container.WithDirectory
                        (Container.From Container.scratch ("golang:" ++ go.Version))
                        workDir venomSrc)
                      workDir)
                    ["make", "build", "OS=" ++ w.GOOS, "ARCH=" ++ w.GOARCH])
                  (Join [workDir, "dist"])
              ([.Contents goMod, .ParseLax "go.mod" modContents],
                .returns
                  (some (Container.WithFile (Container.From Container.scratch "alpine:latest")
                    "/usr/local/venom"
                    (File.ofDirectory build ("venom." ++ w.GOOS ++ "-" ++ w.GOARCH))),
                   none))

/-- The struct `TestResults`; `ResultsDir` is a pointer, `none` is `nil`. -/
structure TestResults where
  ResultsDir : Option Directory
  ExitCode : Int

/-- The zero value `TestResults{}`. -/
def TestResults.zero : TestResults := { ResultsDir := none, ExitCode := 0 }

/-- The local `workDir` of `Test`. -/
def Test.workDir : String := "/workdir"

/-- The local `testsDir` of `Test`. -/
def Test.testsDir : String := "tests"

/-- The local `exitCodeFile` of `Test`. -/
def Test.exitCodeFile : String := "exit_code"

/-- The local `testsPath` of `Test`. -/
def Test.testsPath : String := Join [Test.workDir, Test.testsDir]

/-- The local `resultsPath` of `Test`. -/
def Test.resultsPath : String := Join [Test.workDir, "results"]

/-- The arguments `Test` gives to `WithExec`. -/
def Test.execArgs : List String :=
  ["/bin/sh", "-c",
    "/usr/local/venom run ./" ++ Test.testsDir ++ "/*.y*ml --html-report; echo -n $? > "
      ++ Test.exitCodeFile]

/-- The container `Test` builds from the Venom image and hands to `Sync`. -/
def Test.execContainer (venom : Container) (tests : Directory) : Container :=
  Container.WithExec
    (Container.WithEnvVariable
      (Container.WithEnvVariable
        (Container.WithEnvVariable
          (Container.WithMountedDirectory
            (Container.WithWorkdir venom Test.workDir)
            Test.testsPath tests)
          "VENOM_OUTPUT_DIR" Test.resultsPath)
        "VENOM_LIB_DIR" (Join [Test.testsPath, "lib"]))
      "VENOM_VERBOSE" "1")
    Test.execArgs

/-- The method `(*DaggerVenom).Test`: the calls made and the outcome, a pair
`(TestResults, error)` or a panic. -/
def Test (w : World) (tests : Directory) : List Step × Outcome (TestResults × Option GoError) :=
  match Venom w with
  | (tr, .panics msg) => (tr, .panics msg)
  | (tr, .returns (_, some err)) =>
      (tr, .returns (TestResults.zero, some (Errorf w.Quote "error building venom container" err)))
  | (tr, .returns (none, none)) => (tr, .panics nilDereference)
  | (tr, .returns (some venom, none)) =>
      let c := Test.execContainer venom tests
      match w.Sync c with
      | .error err =>
          (tr ++ [.Sync c],
            .returns (TestResults.zero, some (Errorf w.Quote "unexpected error executing tests" err)))
      | .ok testContainer =>
          let exitCodeFile := File.ofContainer testContainer (Join [Test.workDir, Test.exitCodeFile])
          match w.Contents exitCodeFile with
          | .error err =>
              (tr ++ [.Sync c, .Contents exitCodeFile],
                .returns (TestResults.zero,
                  some (Errorf w.Quote "could not get error code from test command" err)))
          | .ok exitCodeStr =>
              match Atoi w.IntSize exitCodeStr with
              | (_, some err) =>
                  (tr ++ [.Sync c, .Contents exitCodeFile, .Atoi exitCodeStr],
                    .returns (TestResults.zero,
                      some (Errorf w.Quote "invalid exit code for tests" err)))
              | (exitCode, none) =>
                  (tr ++ [.Sync c, .Contents exitCodeFile, .Atoi exitCodeStr],
                    .returns
                      ({ ResultsDir := some (Directory.ofContainer testContainer Test.resultsPath),
                         ExitCode := exitCode },
                       none))

/-! ## What a container handle says about the execution

The working directory, the environment variables, the mounts and the command of
a container are read off the chain of calls that built the handle. -/

/-- The path `p` seen from the directory `cwd`: `p` itself when it is absolute,
else `cwd` followed by `p`; cleaned in both cases. -/
def resolvePath (cwd p : String) : String :=
  match p.data with
  | '/' :: _ => Clean p
  | _ => Join [cwd, p]

/-- The working directory set on a container (`/` when none was set). -/
def Container.workdir : Container → String
  | .scratch => "/"
  | .From _ _ => "/"
  | .WithDirectory c _ _ => c.workdir
  | .WithWorkdir c path => resolvePath c.workdir path
  | .WithExec c _ => c.workdir
  | .WithFile c _ _ => c.workdir
  | .WithMountedDirectory c _ _ => c.workdir
  | .WithEnvVariable c _ _ => c.workdir

/-- The environment variables set on a container by `WithEnvVariable`, in the
order of the calls. -/
def Container.envVariables : Container → List (String × String)
  | .scratch => []
  | .From _ _ => []
  | .WithDirectory c _ _ => c.envVariables
  | .WithWorkdir c _ => c.envVariables
  | .WithExec c _ => c.envVariables
  | .WithFile c _ _ => c.envVariables
  | .WithMountedDirectory c _ _ => c.envVariables
  | .WithEnvVariable c name value => c.envVariables ++ [(name, value)]

/-- The directories mounted on a container by `WithMountedDirectory`, with the
path of each mount. -/
def Container.mounts : Container → List (String × Directory)
  | .scratch => []
  | .From _ _ => []
  | .WithDirectory c _ _ => c.mounts
  | .WithWorkdir c _ => c.mounts
  | .WithExec c _ => c.mounts
  | .WithFile c _ _ => c.mounts
  | .WithMountedDirectory c path source => c.mounts ++ [(path, source)]
  | .WithEnvVariable c _ _ => c.mounts

/-- The arguments of the last `WithExec` of a container. -/
def Container.lastExec : Container → Option (List String)
  | .scratch => none
  | .From _ _ => none
  | .WithDirectory c _ _ => c.lastExec
  | .WithWorkdir c _ => c.lastExec
  | .WithExec _ args => some args
  | .WithFile c _ _ => c.lastExec
  | .WithMountedDirectory c _ _ => c.lastExec
  | .WithEnvVariable c _ _ => c.lastExec

/-! ## The fragment of `/bin/sh` used by the command of `Test`

The command line of `Test` is a sequential list of two simple commands.  The rules
written out here are those of the POSIX shell for that fragment: `;` runs the
commands one after the other whatever their exit status, `$?` expands to the
decimal exit status of the last command, `> word` redirects the standard output to
the file `word`, and an unquoted word with `*` or `?` in its last component is
replaced by the matching file names (and left as it is when none matches).
Quoting, bracket expressions and patterns in a directory part are outside the
fragment.  `echo -n` is the builtin of the image's shell (BusyBox): it writes its
arguments, separated by blanks, without a final newline. -/

/-- The files of a container: the contents of the regular files by absolute path
and the names in each directory. -/
structure FS where
  file : String → Option Bytes
  entries : String → List String

/-- The position of the last component of a path: what precedes it (with the
slash) and the component itself. -/
def splitLastSlash (w : List Char) : List Char × List Char :=
  let last := (w.reverse.takeWhile (fun c => c ≠ '/')).reverse
  (w.take (w.length - last.length), last)

/-- The file at the absolute path `path` is created or truncated and receives `data`. -/
def FS.write (fs : FS) (path : String) (data : Bytes) : FS :=
  let dir := Clean (String.mk (splitLastSlash path.data).1)
  let name := String.mk (splitLastSlash path.data).2
  { file := fun p => if p = path then some data else fs.file p
    entries := fun d =>
      if d = dir ∧ name ∉ fs.entries d then fs.entries d ++ [name] else fs.entries d }

/-- Some suffix of the string satisfies `f`: what is left for the rest of a pattern
after `*` has taken a prefix of the string. -/
def anySuffix (f : List Char → Bool) : List Char → Bool
  | [] => f []
  | c :: s => f (c :: s) || anySuffix f s

/-- The match of a shell pattern against a string: `*` matches any string, `?` any
character, any other character itself. -/
def globMatch : List Char → List Char → Bool
  | [], s => s.isEmpty
  | '*' :: p, s => anySuffix (fun t => globMatch p t) s
  | _ :: _, [] => false
  | a :: p, c :: s => (a = '?' ∨ a = c) && globMatch p s

/-- The match of a pattern against a file name in pathname expansion: a period at
the start of the name is matched only by a period at the start of the pattern. -/
def matchName (pat name : List Char) : Bool :=
  match name, pat with
  | '.' :: _, '.' :: _ => globMatch pat name
  | '.' :: _, _ => false
  | _, _ => globMatch pat name

/-- The pathname expansion of a word seen from the directory `cwd`. -/
def expandPathname (cwd : String) (fs : FS) (word : String) : List String :=
  if word.data.any (fun c => c = '*' ∨ c = '?') then
    let dirPart := (splitLastSlash word.data).1
    let pat := (splitLastSlash word.data).2
    let dir := if dirPart = [] then cwd else resolvePath cwd (String.mk dirPart)
    let names := (fs.entries dir).filter (fun name => matchName pat name.data)
    if names = [] then [word] else names.map (fun name => String.mk dirPart ++ name)
  else [word]

/-- The expansion of the special parameter `?` in a word. -/
def expandStatus (status : Nat) : List Char → List Char
  | [] => []
  | '$' :: '?' :: rest => (Nat.repr status).data ++ expandStatus status rest
  | c :: rest => c :: expandStatus status rest

/-- The pieces of a text between occurrences of the separator. -/
def splitOn (sep : Char) : List Char → List (List Char)
  | [] => [[]]
  | c :: cs =>
      if c = sep then [] :: splitOn sep cs
      else
        match splitOn sep cs with
        | [] => [[c]]
        | w :: ws => (c :: w) :: ws

/-- The words of a simple command: the non-empty pieces between blanks. -/
def words (text : List Char) : List String :=
  ((splitOn ' ' text).filter (fun w => w ≠ [])).map String.mk

/-- The words of a command without its output redirection, and the target of the
redirection if there is one. -/
def splitRedirect : List String → List String × Option String
  | [] => ([], none)
  | [w] => ([w], none)
  | w :: t :: rest =>
      if w = ">" then ((splitRedirect rest).1, some t)
      else ((w :: (splitRedirect (t :: rest)).1), (splitRedirect (t :: rest)).2)

/-- A program started by the shell: from its arguments, the working directory and
the files, its exit status, the files it leaves and what it writes to its
standard output. -/
abbrev Program := List String → String → FS → Nat × FS × Bytes

/-- The state of the shell: working directory, files, the exit status of the last
command (`$?`), and the argument lists of the programs started so far. -/
structure ShState where
  cwd : String
  fs : FS
  status : Nat
  started : List (List String)

/-- The standard output of a command goes to the target of its redirection, if any. -/
def writeOutput (cwd : String) (fs : FS) (target : Option String) (out : Bytes) : FS :=
  match target with
  | some t => fs.write (resolvePath cwd t) out
  | none => fs

/-- One simple command: expansions, then the builtin `echo` or a program. -/
def runCommand (run : Program) (st : ShState) (text : List Char) : ShState :=
  let target := (splitRedirect (words text)).2.map
    (fun t => String.mk (expandStatus st.status t.data))
  let args := (splitRedirect (words text)).1.flatMap
    (fun w => expandPathname st.cwd st.fs (String.mk (expandStatus st.status w.data)))
  match args with
  | [] => { st with fs := writeOutput st.cwd st.fs target [], status := 0 }
  | "echo" :: "-n" :: rest =>
      { st with fs := writeOutput st.cwd st.fs target (bytes (String.intercalate " " rest))
                status := 0 }
  | "echo" :: rest =>
      { st with fs := writeOutput st.cwd st.fs target (bytes (String.intercalate " " rest ++ "\n"))
                status := 0 }
  | argv =>
      let r := run argv st.cwd st.fs
      { st with fs := writeOutput st.cwd r.2.1 target r.2.2
                status := r.1
                started := st.started ++ [argv] }

/-- The call `/bin/sh -c command` in the directory `cwd`: the commands of the list
are run in order. -/
def sh (run : Program) (cwd : String) (fs : FS) (command : String) : ShState :=
  (splitOn ';' command.data).foldl (runCommand run)
    { cwd := cwd, fs := fs, status := 0, started := [] }

/-- The execution of the command of a container: its last `WithExec`, when that
is a call of `/bin/sh -c`, run in the working directory of the container. -/
def Container.exec (run : Program) (fs : FS) (c : Container) : Option ShState :=
  match c.lastExec with
  | some ["/bin/sh", "-c", command] => some (sh run c.workdir fs command)
  | _ => none

/-! ## Notions used in the statements -/

/-- The number written by a sequence of decimal digit bytes, read after `a`. -/
def digitsValue (bs : Bytes) (a : Nat) : Nat :=
  bs.foldl (fun acc b => acc * 10 + (b - 48)) a

/-- Every byte is an ASCII decimal digit. -/
def IsDigits (bs : Bytes) : Prop := ∀ b ∈ bs, 48 ≤ b ∧ b ≤ 57

/-! ## Sample collaborators -/

/-- A stand-in for `strconv.Quote` on printable ASCII text without quotes or
backslashes: the text between double quotes. -/
def sampleQuote (b : Bytes) : String := "\"" ++ String.mk (b.map Char.ofNat) ++ "\""

/-- A world on a 64-bit Linux host in which every call has a prescribed answer:
`goMod` for the read of go.mod, `parsed` for `ParseLax`, `sync` for `Sync` (an
error, or success with the container handed in), `exit` for the read of the
exit-code file. -/
def sampleWorld (goMod : Except GoError Bytes) (parsed : Except GoError ModFile)
    (sync : Option GoError) (exit : Except GoError Bytes) : World where
  Contents := fun f =>
    match f with
    | .ofDirectory _ _ => goMod
    | .ofContainer _ _ => exit
  Sync := fun c =>
    match sync with
    | some e => .error e
    | none => .ok c
  ParseLax := fun _ _ => parsed
  GOOS := "linux"
  GOARCH := "amd64"
  IntSize := 64
  Quote := sampleQuote

/-- A go.mod with a `go` statement. -/
def sampleGoMod : Bytes := bytes "module github.com/ovh/venom\n\ngo 1.21\n"

/-- The parse of `sampleGoMod`, as far as the program reads it. -/
def sampleModFile : ModFile := { Go := some { Version := "1.21" } }

/-- A go.mod without a `go` statement; `modfile.ParseLax` accepts it and leaves
the field `Go` nil. -/
def goModWithoutGo : Bytes := bytes "module github.com/ovh/venom\n"

/-- The image `Venom` returns in a sample world where the manifest parses. -/
def sampleVenom : Container :=
  Container.WithFile (Container.From Container.scratch "alpine:latest") "/usr/local/venom"
    (File.ofDirectory
      (Directory.ofContainer
        (Container.WithExec
          (Container.WithWorkdir
            (Container.WithDirectory (Container.From Container.scratch "golang:1.21")
              "/venom" Venom.venomSrc)
            "/venom")
          ["make", "build", "OS=linux", "ARCH=amd64"])
        "/venom/dist")
      "venom.linux-amd64")

/-- Sample leaf errors of the engine. -/
def sampleError (id : Nat) : GoError := .errorString (100 + id) "collaborator failed"

/-- A sample error of `modfile.ParseLax`: an `ErrorList` with one error. -/
def sampleParseError : GoError := .ErrorList ["go.mod:3: unknown directive: gox"]

/-- A tests directory with a hidden YAML file and a visible one. -/
def sampleFS : FS where
  file := fun _ => none
  entries := fun d => if d = "/workdir/tests" then [".hidden.yml", "suite.yml"] else []

/-- A tool that exits with the status `s` and leaves the files as they are. -/
def sampleProgram (s : Nat) : Program := fun _ _ fs => (s, fs, [])

/-! ## Decimal digits and `strconv.Atoi` -/

theorem le_digitsValue (bs : Bytes) (a : Nat) : a ≤ digitsValue bs a := by
  induction bs generalizing a with
  | nil => simp [digitsValue]
  | cons b bs ih =>
      have h := ih (a * 10 + (b - 48))
      simp only [digitsValue, List.foldl_cons] at h ⊢
      omega

theorem digitsValue_append (xs ys : Bytes) (a : Nat) :
    digitsValue (xs ++ ys) a = digitsValue ys (digitsValue xs a) := by
  simp [digitsValue, List.foldl_append]

theorem decimalCore_spec (fuel : Nat) : ∀ (m : Nat) (acc : Bytes), m < fuel →
    ∃ ds, decimalCore fuel m acc = ds ++ acc ∧ ds ≠ [] ∧ IsDigits ds ∧
      ∀ a, digitsValue ds a = a * 10 ^ ds.length + m := by
  induction fuel with
  | zero => intro m acc h; omega
  | succ fuel ih =>
      intro m acc hm
      by_cases h0 : m / 10 = 0
      · refine ⟨[48 + m % 10], ?_, by simp, ?_, ?_⟩
        · simp [decimalCore, h0]
        · intro b hb
          simp only [List.mem_singleton] at hb
          omega
        · intro a
          simp only [digitsValue, List.foldl_cons, List.foldl_nil, List.length_singleton, pow_one]
          omega
      · obtain ⟨ds, h1, _, h3, h4⟩ := ih (m / 10) ((48 + m % 10) :: acc) (by omega)
        refine ⟨ds ++ [48 + m % 10], ?_, by simp, ?_, ?_⟩
        · simp [decimalCore, h0, h1]
        · intro b hb
          rcases List.mem_append.mp hb with hb | hb
          · exact h3 b hb
          · simp only [List.mem_singleton] at hb
            omega
        · intro a
          rw [digitsValue_append, h4 a]
          simp only [digitsValue, List.foldl_cons, List.foldl_nil, List.length_append,
            List.length_singleton, pow_succ]
          have := Nat.div_add_mod m 10
          have e : 48 + m % 10 - 48 = m % 10 := by omega
          rw [e]
          nlinarith [Nat.div_add_mod m 10]

theorem atoiLoop_digits (s0 : Bytes) : ∀ (ds : Bytes) (a : Nat), IsDigits ds →
    atoiLoop s0 ds (a : Int) = (((digitsValue ds a : Nat) : Int), none) := by
  intro ds
  induction ds with
  | nil => intro a _; simp [atoiLoop, digitsValue]
  | cons b bs ih =>
      intro a h
      have hb := h b (List.mem_cons_self _ _)
      have hbs : IsDigits bs := fun x hx => h x (List.mem_cons_of_mem _ hx)
      have e : (b + 256 - 48) % 256 = b - 48 := by omega
      have e9 : ¬ (b - 48 > 9) := by omega
      have ih' := ih (a * 10 + (b - 48)) hbs
      have e9' : ¬ (((b + 256 - 48) % 256 : Nat) > 9) := by omega
      have key : atoiLoop s0 (b :: bs) (a : Int)
          = atoiLoop s0 bs (((a * 10 + (b - 48) : Nat)) : Int) := by
        rw [atoiLoop, if_neg e9', e]
        push_cast
        rfl
      rw [key, ih']
      simp [digitsValue]

theorem parseUintLoop_digits (s0 : Bytes) (maxVal : Nat) (hmax : maxVal < 2 ^ 64) :
    ∀ (ds : Bytes) (a : Nat), IsDigits ds → digitsValue ds a ≤ maxVal →
      parseUintLoop s0 maxVal ds a = (digitsValue ds a, none) := by
  intro ds
  induction ds with
  | nil => intro a _ _; simp [parseUintLoop, digitsValue]
  | cons b bs ih =>
      intro a h hv
      have hb := h b (List.mem_cons_self _ _)
      have hbs : IsDigits bs := fun x hx => h x (List.mem_cons_of_mem _ hx)
      have hv' : digitsValue bs (a * 10 + (b - 48)) ≤ maxVal := by
        simpa [digitsValue] using hv
      have hle := le_digitsValue bs (a * 10 + (b - 48))
      have ih' := ih (a * 10 + (b - 48)) hbs hv'
      have hp : (2:Nat) ^ 64 = 18446744073709551616 := by norm_num
      rw [hp] at hmax
      have c1 : ¬ (b - 48 ≥ 10) := by omega
      have c2 : ¬ (a ≥ (2 ^ 64 - 1) / 10 + 1) := by
        norm_num
        omega
      have e1 : a * 10 % 2 ^ 64 = a * 10 := by
        rw [hp]; omega
      have e2 : (a * 10 + (b - 48)) % 2 ^ 64 = a * 10 + (b - 48) := by
        rw [hp]; omega
      have c3 : ¬ (a * 10 + (b - 48) < a * 10 ∨ a * 10 + (b - 48) > maxVal) := by omega
      simp only [parseUintLoop, hb, and_self, if_true, c1, c2, if_false, e1, e2, c3]
      simpa [digitsValue] using ih'

theorem ParseUint_digits (IntSize : Nat) (hsize : IntSize = 32 ∨ IntSize = 64) (ds : Bytes)
    (hne : ds ≠ []) (hd : IsDigits ds) (hv : digitsValue ds 0 < 2 ^ IntSize) :
    ParseUint IntSize ds 0 = (digitsValue ds 0, none) := by
  unfold ParseUint
  rw [if_neg hne]
  simp only [if_true]
  apply parseUintLoop_digits
  · rcases hsize with h | h <;> subst h <;> norm_num
  · exact hd
  · rcases hsize with h | h <;> subst h <;> norm_num at hv ⊢ <;> omega

theorem ParseInt_digits (IntSize : Nat) (hsize : IntSize = 32 ∨ IntSize = 64) (b : Nat)
    (bs : Bytes) (hd : IsDigits (b :: bs)) (hv : digitsValue (b :: bs) 0 < 2 ^ (IntSize - 1)) :
    ParseInt IntSize (b :: bs) 0 = (((digitsValue (b :: bs) 0 : Nat) : Int), none) := by
  have hb := hd b (List.mem_cons_self _ _)
  have h43 : ¬ b = 43 := by omega
  have h45 : ¬ b = 45 := by omega
  have hv2 : digitsValue (b :: bs) 0 < 2 ^ IntSize := by
    rcases hsize with h | h <;> subst h <;> norm_num at hv ⊢ <;> omega
  have hp := ParseUint_digits IntSize hsize (b :: bs) (by simp) hd hv2
  unfold ParseInt
  simp only [h43, h45, if_false, hp, decide_False]
  generalize digitsValue (b :: bs) 0 = v at hv hv2 ⊢
  rcases hsize with h | h
  · subst h
    norm_num at hv
    have h1 : ¬ (2147483648 ≤ v) := by omega
    simp [toSigned, h1]
    omega
  · subst h
    norm_num at hv
    have h1 : ¬ (9223372036854775808 ≤ v) := by omega
    simp [toSigned, h1]
    omega

theorem ParseInt_minus_digits (IntSize : Nat) (hsize : IntSize = 32 ∨ IntSize = 64) (ds : Bytes)
    (hne : ds ≠ []) (hd : IsDigits ds) (hv : digitsValue ds 0 ≤ 2 ^ (IntSize - 1)) :
    toSigned IntSize (ParseInt IntSize (45 :: ds) 0).1 = - ((digitsValue ds 0 : Nat) : Int) ∧
      (ParseInt IntSize (45 :: ds) 0).2 = none := by
  have hv2 : digitsValue ds 0 < 2 ^ IntSize := by
    rcases hsize with h | h <;> subst h <;> norm_num at hv ⊢ <;> omega
  have hp := ParseUint_digits IntSize hsize ds hne hd hv2
  unfold ParseInt
  simp [hp]
  generalize digitsValue ds 0 = v at hv hv2 ⊢
  rcases hsize with h | h
  · subst h
    norm_num at hv
    have h1 : ¬ (2147483648 < v) := by omega
    simp [toSigned, h1]
    omega
  · subst h
    norm_num at hv
    have h1 : ¬ (9223372036854775808 < v) := by omega
    simp [toSigned, h1]
    omega

theorem ite_eq_of_both {α : Type} (c : Prop) [Decidable c] (x y r : α) (hx : x = r)
    (hy : y = r) : (if c then x else y) = r := by
  split <;> assumption

theorem Atoi_decimal (IntSize : Nat) (hsize : IntSize = 32 ∨ IntSize = 64) (n : Int)
    (hlo : -(2 : Int) ^ (IntSize - 1) ≤ n) (hhi : n < (2 : Int) ^ (IntSize - 1)) :
    Atoi IntSize (decimal n) = (n, none) := by
  obtain ⟨ds, h1, hne, hd, hval⟩ :=
    decimalCore_spec (n.natAbs + 1) n.natAbs [] (Nat.lt_succ_self _)
  rw [List.append_nil] at h1
  have hv : digitsValue ds 0 = n.natAbs := by simpa using hval 0
  obtain ⟨b, bs, rfl⟩ := List.exists_cons_of_ne_nil hne
  have hb := hd b (List.mem_cons_self _ _)
  have h43 : ¬ b = 43 := by omega
  have h45 : ¬ b = 45 := by omega
  unfold decimal
  rw [h1]
  by_cases hneg : n < 0
  · rw [if_pos hneg]
    have hv' : digitsValue (b :: bs) 0 ≤ 2 ^ (IntSize - 1) := by
      rw [hv]
      rcases hsize with h | h <;> subst h <;> norm_num at hlo hhi ⊢ <;> omega
    obtain ⟨p1, p2⟩ := ParseInt_minus_digits IntSize hsize (b :: bs) hne hd hv'
    have hl := atoiLoop_digits (45 :: b :: bs) (b :: bs) 0 hd
    simp only [Nat.cast_zero] at hl
    unfold Atoi
    apply ite_eq_of_both
    · simp only [true_or, if_true, List.length_cons, true_and]
      rw [if_neg (by omega), hl, hv]
      simp only [if_true]
      congr 1
      omega
    · generalize ParseInt IntSize (45 :: b :: bs) 0 = r at p1 p2
      obtain ⟨i64, err⟩ := r
      simp only at p1 p2
      subst p2
      simp only [p1, hv]
      congr 1
      omega
  · rw [if_neg hneg]
    have hv' : digitsValue (b :: bs) 0 < 2 ^ (IntSize - 1) := by
      rw [hv]
      rcases hsize with h | h <;> subst h <;> norm_num at hlo hhi ⊢ <;> omega
    have p := ParseInt_digits IntSize hsize b bs hd hv'
    have hl := atoiLoop_digits (b :: bs) (b :: bs) 0 hd
    simp only [Nat.cast_zero] at hl
    have e : ((n.natAbs : Nat) : Int) = n := by omega
    unfold Atoi
    apply ite_eq_of_both
    · simp only [h43, h45, or_self, if_false, false_and]
      rw [hl, hv, e]
    · rw [p, hv, e]
      simp only
      congr 1
      rcases hsize with h | h <;> subst h <;> norm_num at hlo hhi ⊢ <;>
        simp [toSigned] <;> omega

theorem utf8_digitChar (d : Nat) (h : d < 10) : utf8 [Nat.digitChar d] = [48 + d] := by
  interval_cases d <;> decide

theorem utf8_cons (c : Char) (cs : List Char) : utf8 (c :: cs) = utf8 [c] ++ utf8 cs := by
  simp [utf8]

theorem utf8_toDigitsCore (fuel : Nat) : ∀ (m : Nat) (cs : List Char),
    utf8 (Nat.toDigitsCore 10 fuel m cs) = decimalCore fuel m (utf8 cs) := by
  induction fuel with
  | zero => intro m cs; simp [Nat.toDigitsCore, decimalCore]
  | succ fuel ih =>
      intro m cs
      have hd := utf8_digitChar (m % 10) (Nat.mod_lt _ (by norm_num))
      simp only [Nat.toDigitsCore, decimalCore]
      split
      · rw [utf8_cons, hd]; rfl
      · rw [ih, utf8_cons, hd]; rfl

theorem bytes_repr (m : Nat) : bytes (Nat.repr m) = decimal m := by
  have hneg : ¬ ((m : Int) < 0) := by omega
  simp only [bytes, Nat.repr, Nat.toDigits, List.asString, decimal, if_neg hneg, Int.natAbs_ofNat]
  rw [utf8_toDigitsCore]
  rfl

/-! ## The shell fragment on the command of `Test` -/

theorem globMatch_star_append (p : List Char) (a s : List Char) (h : globMatch p s = true) :
    globMatch ('*' :: p) (a ++ s) = true := by
  have hs : anySuffix (fun t => globMatch p t) s = true := by
    cases s with
    | nil => simpa [anySuffix] using h
    | cons c s => simp [anySuffix, h]
  induction a with
  | nil => simpa [globMatch] using hs
  | cons x a ih =>
      simp only [globMatch] at ih ⊢
      simp [anySuffix, ih]

theorem matchName_of_not_dot (pat name : List Char) (h : name.head? ≠ some '.') :
    matchName pat name = globMatch pat name := by
  unfold matchName
  split
  · simp at h
  · simp at h
  · rfl

theorem digitChar_not_meta (d : Nat) (h : d < 10) :
    (Nat.digitChar d = '*' ∨ Nat.digitChar d = '?' ∨ Nat.digitChar d = '$') = False := by
  interval_cases d <;> decide

theorem toDigitsCore_no_meta (fuel : Nat) : ∀ (m : Nat) (cs : List Char),
    (∀ c ∈ cs, ¬ (c = '*' ∨ c = '?')) →
    ∀ c ∈ Nat.toDigitsCore 10 fuel m cs, ¬ (c = '*' ∨ c = '?') := by
  induction fuel with
  | zero => intro m cs h; simpa [Nat.toDigitsCore] using h
  | succ fuel ih =>
      intro m cs h
      have hd : ¬ (Nat.digitChar (m % 10) = '*' ∨ Nat.digitChar (m % 10) = '?') := by
        have := digitChar_not_meta (m % 10) (Nat.mod_lt _ (by norm_num))
        intro hc
        rw [← this]
        rcases hc with hc | hc
        · exact Or.inl hc
        · exact Or.inr (Or.inl hc)
      have h' : ∀ c ∈ Nat.digitChar (m % 10) :: cs, ¬ (c = '*' ∨ c = '?') := by
        intro c hc
        rcases List.mem_cons.mp hc with rfl | hc
        · exact hd
        · exact h c hc
      simp only [Nat.toDigitsCore]
      split
      · exact h'
      · exact ih _ _ h'

theorem expandPathname_repr (cwd : String) (fs : FS) (s : Nat) :
    expandPathname cwd fs (String.mk (Nat.repr s).data) = [Nat.repr s] := by
  have h : ((Nat.repr s).data.any fun c => decide (c = '*' ∨ c = '?')) = false := by
    rw [List.any_eq_false]
    intro c hc
    have := toDigitsCore_no_meta (s + 1) s [] (by simp) c
      (by simpa [Nat.repr, Nat.toDigits, List.asString] using hc)
    simpa using this
  unfold expandPathname
  rw [if_neg (by simp only [h]; decide)]

theorem splitOn_testCommand :
    splitOn ';' ("/usr/local/venom run ./tests/*.y*ml --html-report; echo -n $? > exit_code").data
      = [("/usr/local/venom run ./tests/*.y*ml --html-report").data,
         (" echo -n $? > exit_code").data] := by
  decide

theorem runCommand_venom (run : Program) (cwd : String) (fs : FS) (status : Nat)
    (started : List (List String)) :
    runCommand run { cwd := cwd, fs := fs, status := status, started := started }
        ("/usr/local/venom run ./tests/*.y*ml --html-report").data
      = { cwd := cwd
          fs := (run (["/usr/local/venom", "run"] ++ expandPathname cwd fs "./tests/*.y*ml"
                  ++ ["--html-report"]) cwd fs).2.1
          status := (run (["/usr/local/venom", "run"] ++ expandPathname cwd fs "./tests/*.y*ml"
                  ++ ["--html-report"]) cwd fs).1
          started := started ++ [["/usr/local/venom", "run"]
                  ++ expandPathname cwd fs "./tests/*.y*ml" ++ ["--html-report"]] } := by
  have hw : words ("/usr/local/venom run ./tests/*.y*ml --html-report").data
      = ["/usr/local/venom", "run", "./tests/*.y*ml", "--html-report"] := by decide
  unfold runCommand
  rw [hw]
  simp [splitRedirect, expandStatus, expandPathname, writeOutput]

theorem runCommand_echo (run : Program) (cwd : String) (fs : FS) (status : Nat)
    (started : List (List String)) :
    runCommand run { cwd := cwd, fs := fs, status := status, started := started }
        (" echo -n $? > exit_code").data
      = { cwd := cwd
          fs := fs.write (resolvePath cwd "exit_code") (bytes (Nat.repr status))
          status := 0
          started := started } := by
  have hw : words (" echo -n $? > exit_code").data = ["echo", "-n", "$?", ">", "exit_code"] := by
    decide
  have hr : splitRedirect ["echo", "-n", "$?", ">", "exit_code"]
      = (["echo", "-n", "$?"], some "exit_code") := by decide
  have h1 : ∀ n, expandPathname cwd fs (String.mk (expandStatus n ("echo").data)) = ["echo"] := by
    intro n; rfl
  have h2 : ∀ n, expandPathname cwd fs (String.mk (expandStatus n ("-n").data)) = ["-n"] := by
    intro n; rfl
  have h3 : ∀ n, expandStatus n ("$?").data = (Nat.repr n).data := by
    intro n
    show (Nat.repr n).data ++ [] = (Nat.repr n).data
    rw [List.append_nil]
  have h4 : ∀ n, String.mk (expandStatus n ("exit_code").data) = "exit_code" := by
    intro n; rfl
  unfold runCommand
  rw [hw, hr]
  simp only [List.flatMap_cons, List.flatMap_nil, h1, h2, h3, h4, expandPathname_repr,
    Option.map_some', List.append_nil, List.cons_append, List.nil_append, List.singleton_append]
  simp [writeOutput, String.intercalate, String.intercalate.go]

theorem exec_execContainer (run : Program) (fs : FS) (venom : Container) (tests : Directory) :
    (Test.execContainer venom tests).exec run fs
      = some
        { cwd := "/workdir"
          fs := (run (["/usr/local/venom", "run"] ++ expandPathname "/workdir" fs "./tests/*.y*ml"
                  ++ ["--html-report"]) "/workdir" fs).2.1.write "/workdir/exit_code"
                (bytes (Nat.repr (run (["/usr/local/venom", "run"]
                  ++ expandPathname "/workdir" fs "./tests/*.y*ml"
                  ++ ["--html-report"]) "/workdir" fs).1))
          status := 0
          started := [["/usr/local/venom", "run"] ++ expandPathname "/workdir" fs "./tests/*.y*ml"
                  ++ ["--html-report"]] } := by
  have hcmd : Test.execArgs = ["/bin/sh", "-c",
      "/usr/local/venom run ./tests/*.y*ml --html-report; echo -n $? > exit_code"] := by decide
  have hwd : (Test.execContainer venom tests).workdir = "/workdir" := by
    show resolvePath venom.workdir "/workdir" = "/workdir"
    rfl
  have hp : resolvePath "/workdir" "exit_code" = "/workdir/exit_code" := by decide
  have hl : (Test.execContainer venom tests).lastExec = some ["/bin/sh", "-c",
      "/usr/local/venom run ./tests/*.y*ml --html-report; echo -n $? > exit_code"] := by
    rw [← hcmd]
    rfl
  unfold Container.exec
  rw [hl, hwd]
  show some (sh run "/workdir" fs _) = _
  unfold sh
  rw [splitOn_testCommand, List.foldl_cons, List.foldl_cons, List.foldl_nil, runCommand_venom,
    runCommand_echo, hp, List.nil_append]

/-! ## Errors -/

theorem isLoop_self (e : GoError) : isLoop e true e = true := by
  cases e <;> simp [isLoop]

theorem Is_self (e : GoError) (h : e.comparable = true) : Is e e = true := by
  unfold Is
  rw [h]
  exact isLoop_self e

theorem Is_wrapError (msg : String) (e t : GoError) (h : Is e t = true) :
    Is (.wrapError msg e) t = true := by
  unfold Is at h ⊢
  simp [isLoop, h]

theorem Is_Errorf (Quote : Bytes → String) (text : String) (e t : GoError) (h : Is e t = true) :
    Is (Errorf Quote text e) t = true := Is_wrapError _ e t h

theorem isLoop_false (t : GoError) : ∀ e, isLoop t false e = false := by
  intro e
  induction e with
  | errorString id s => simp [isLoop]
  | ErrorList errs => simp [isLoop]
  | NumError f n inner ih => simp [isLoop, ih]
  | wrapError m inner ih => simp [isLoop, ih]

theorem Is_of_not_comparable (e t : GoError) (h : t.comparable = false) : Is e t = false := by
  unfold Is
  rw [h]
  exact isLoop_false t e

theorem Error_Errorf (Quote : Bytes → String) (text : String) (e : GoError) :
    (Errorf Quote text e).Error Quote = text ++ ": " ++ e.Error Quote := rfl

/-! ## Paths of `Test` -/

theorem testsPath_eq : Test.testsPath = "/workdir/tests" := by decide

theorem resultsPath_eq : Test.resultsPath = "/workdir/results" := by decide

theorem exitCodePath_eq : Join [Test.workDir, Test.exitCodeFile] = "/workdir/exit_code" := by
  decide

theorem sampleVenom_eq :
    Venom (sampleWorld (.ok sampleGoMod) (.ok sampleModFile) none (.ok (bytes "1")))
      = ([.Contents (.ofDirectory Venom.venomSrc "go.mod"), .ParseLax "go.mod" sampleGoMod],
          .returns (some sampleVenom, none)) := by
  rfl

/-- C1: for every value `n` of the type `int`, zero or not, when the image build,
`Sync` and the read of the exit-code file succeed and the file holds the decimal
representation of `n`, `Test` returns a nil error, `ExitCode = n` and the directory
`/workdir/results` of the synced container. -/
theorem C1_exit_code_is_data (w : World) (tests : Directory) (tr : List Step)
    (venom testContainer : Container) (n : Int)
    (hsize : w.IntSize = 32 ∨ w.IntSize = 64)
    (hlo : -(2 : Int) ^ (w.IntSize - 1) ≤ n) (hhi : n < (2 : Int) ^ (w.IntSize - 1))
    (hbuild : Venom w = (tr, .returns (some venom, none)))
    (hsync : w.Sync (Test.execContainer venom tests) = .ok testContainer)
    (hread : w.Contents (.ofContainer testContainer "/workdir/exit_code") = .ok (decimal n)) :
    (Test w tests).2 =
      .returns
        ({ ResultsDir := some (.ofContainer testContainer "/workdir/results"), ExitCode := n },
          none) := by
  unfold Test
  rw [hbuild]
  simp only []
  rw [hsync]
  simp only [exitCodePath_eq]
  rw [hread]
  simp only [Atoi_decimal w.IntSize hsize n hlo hhi, resultsPath_eq]

/-- Witness of C1 in a sample world where the tool exited with status 1. -/
theorem C1_exit_code_is_data_witness :
    (Test (sampleWorld (.ok sampleGoMod) (.ok sampleModFile) none (.ok (decimal 1)))
        (.caller 0)).2 =
      .returns
        ({ ResultsDir :=
              some (.ofContainer (Test.execContainer sampleVenom (.caller 0)) "/workdir/results"),
           ExitCode := 1 },
          none) :=
  C1_exit_code_is_data (sampleWorld (.ok sampleGoMod) (.ok sampleModFile) none (.ok (decimal 1)))
    (.caller 0) _ sampleVenom _ 1 (Or.inr rfl) (by decide) (by decide) rfl rfl rfl

theorem IsDigits_decimal (s : Nat) : IsDigits (decimal s) := by
  obtain ⟨ds, h1, _, hd, _⟩ := decimalCore_spec (s + 1) s [] (Nat.lt_succ_self _)
  rw [List.append_nil] at h1
  have hneg : ¬ ((s : Int) < 0) := by omega
  simp only [decimal, if_neg hneg, Int.natAbs_ofNat, h1]
  exact hd

/-- C2: for every exit status `s` below 256 of the tool, zero or not, the command
of `Test` run by `/bin/sh -c` in the container writes the file `/workdir/exit_code`;
its contents are exactly the decimal digits of `s` (no newline), and `strconv.Atoi`
of these contents is `s` with a nil error. -/
theorem C2_exit_code_capture_roundtrip (IntSize : Nat) (hsize : IntSize = 32 ∨ IntSize = 64)
    (run : Program) (fs : FS) (venom : Container) (tests : Directory) (s : Nat) (hs : s < 256)
    (hrun : ∀ argv, (run argv "/workdir" fs).1 = s) :
    ∃ st, (Test.execContainer venom tests).exec run fs = some st ∧
      st.fs.file "/workdir/exit_code" = some (bytes (Nat.repr s)) ∧
      bytes (Nat.repr s) = decimal s ∧ IsDigits (bytes (Nat.repr s)) ∧
      Atoi IntSize (bytes (Nat.repr s)) = ((s : Int), none) := by
  refine ⟨_, exec_execContainer run fs venom tests, ?_, bytes_repr s, ?_, ?_⟩
  · simp [FS.write, hrun]
  · rw [bytes_repr]
    exact IsDigits_decimal s
  · rw [bytes_repr]
    apply Atoi_decimal IntSize hsize
    · rcases hsize with h | h <;> subst h <;> norm_num <;> omega
    · rcases hsize with h | h <;> subst h <;> norm_num <;> omega

/-- Witness of C2 for the exit status 255. -/
theorem C2_exit_code_capture_roundtrip_witness :
    ∃ st, (Test.execContainer sampleVenom (.caller 0)).exec (sampleProgram 255) sampleFS = some st ∧
      st.fs.file "/workdir/exit_code" = some (bytes (Nat.repr 255)) ∧
      bytes (Nat.repr 255) = decimal 255 ∧ IsDigits (bytes (Nat.repr 255)) ∧
      Atoi 64 (bytes (Nat.repr 255)) = (((255 : Nat) : Int), none) :=
  C2_exit_code_capture_roundtrip 64 (Or.inr rfl) (sampleProgram 255) sampleFS sampleVenom
    (.caller 0) 255 (by decide) (fun _ => rfl)

theorem ite_of_both {α : Type} (P : α → Prop) (c : Prop) [Decidable c] (x y : α) (hx : P x)
    (hy : P y) : P (if c then x else y) := by
  split <;> assumption

theorem Atoi_empty (k : Nat) : (Atoi k []).2 ≠ none := by
  simp [Atoi, ParseInt, syntaxError]

theorem Atoi_trailing_newline (k : Nat) : (Atoi k (bytes "0\n")).2 ≠ none := by
  have hb : bytes "0\n" = [48, 10] := by decide
  have hl : lower 10 = 42 := by decide
  rw [hb]
  unfold Atoi
  show (if _ then _ else _ : Int × Option GoError).2 ≠ none
  refine ite_of_both (fun r : Int × Option GoError => r.2 ≠ none) _ _ _ ?_ ?_
  · simp [atoiLoop]
  · simp [ParseInt, ParseUint, parseUintLoop, hl, syntaxError, GoError.Unwrap, ErrSyntax, ErrRange]

theorem Atoi_non_digit (k : Nat) : (Atoi k (bytes "abc")).2 ≠ none := by
  have hb : bytes "abc" = [97, 98, 99] := by decide
  have hl : lower 97 = 97 := by decide
  rw [hb]
  unfold Atoi
  show (if _ then _ else _ : Int × Option GoError).2 ≠ none
  refine ite_of_both (fun r : Int × Option GoError => r.2 ≠ none) _ _ _ ?_ ?_
  · simp [atoiLoop]
  · simp [ParseInt, ParseUint, parseUintLoop, hl, syntaxError, GoError.Unwrap, ErrSyntax, ErrRange]

/-! ## The failing steps of `Venom` and `Test` -/

theorem Venom_read_error (w : World) (e : GoError)
    (hc : w.Contents (.ofDirectory Venom.venomSrc "go.mod") = .error e) :
    Venom w = ([.Contents (.ofDirectory Venom.venomSrc "go.mod")],
      .returns (none, some (Errorf w.Quote "error reading go.mod" e))) := by
  unfold Venom
  simp only []
  rw [hc]

theorem Venom_parse_error (w : World) (data : Bytes) (e : GoError)
    (hc : w.Contents (.ofDirectory Venom.venomSrc "go.mod") = .ok data)
    (hp : w.ParseLax "go.mod" data = .error e) :
    Venom w = ([.Contents (.ofDirectory Venom.venomSrc "go.mod"), .ParseLax "go.mod" data],
      .returns (none, some (Errorf w.Quote "error parsing go.mod" e))) := by
  unfold Venom
  simp only []
  rw [hc]
  simp only []
  rw [hp]

theorem Test_build_error (w : World) (tests : Directory) (tr : List Step)
    (c : Option Container) (e : GoError) (hb : Venom w = (tr, .returns (c, some e))) :
    Test w tests =
      (tr, .returns (TestResults.zero,
        some (Errorf w.Quote "error building venom container" e))) := by
  unfold Test
  rw [hb]
  cases c <;> rfl

theorem Test_sync_error (w : World) (tests : Directory) (tr : List Step) (venom : Container)
    (e : GoError) (hb : Venom w = (tr, .returns (some venom, none)))
    (hs : w.Sync (Test.execContainer venom tests) = .error e) :
    Test w tests =
      (tr ++ [.Sync (Test.execContainer venom tests)],
        .returns (TestResults.zero,
          some (Errorf w.Quote "unexpected error executing tests" e))) := by
  unfold Test
  rw [hb]
  simp only []
  rw [hs]

theorem Test_read_error (w : World) (tests : Directory) (tr : List Step)
    (venom testContainer : Container) (e : GoError)
    (hb : Venom w = (tr, .returns (some venom, none)))
    (hs : w.Sync (Test.execContainer venom tests) = .ok testContainer)
    (hc : w.Contents (.ofContainer testContainer "/workdir/exit_code") = .error e) :
    Test w tests =
      (tr ++ [.Sync (Test.execContainer venom tests),
              .Contents (.ofContainer testContainer "/workdir/exit_code")],
        .returns (TestResults.zero,
          some (Errorf w.Quote "could not get error code from test command" e))) := by
  unfold Test
  rw [hb]
  simp only []
  rw [hs]
  simp only [exitCodePath_eq]
  rw [hc]

theorem Test_parse_error (w : World) (tests : Directory) (tr : List Step)
    (venom testContainer : Container) (data : Bytes) (v : Int) (e : GoError)
    (hb : Venom w = (tr, .returns (some venom, none)))
    (hs : w.Sync (Test.execContainer venom tests) = .ok testContainer)
    (hc : w.Contents (.ofContainer testContainer "/workdir/exit_code") = .ok data)
    (ha : Atoi w.IntSize data = (v, some e)) :
    Test w tests =
      (tr ++ [.Sync (Test.execContainer venom tests),
              .Contents (.ofContainer testContainer "/workdir/exit_code"), .Atoi data],
        .returns (TestResults.zero,
          some (Errorf w.Quote "invalid exit code for tests" e))) := by
  unfold Test
  rw [hb]
  simp only []
  rw [hs]
  simp only [exitCodePath_eq]
  rw [hc]
  simp only []
  rw [ha]

/-- C3: when the image build and `Sync` succeed, `Test` returns a non-nil error
exactly when the read of `/workdir/exit_code` fails or `strconv.Atoi` rejects its
contents (as it does for empty contents, a trailing newline, and non-digit text);
when `Test` succeeds, `ExitCode` is the integer `Atoi` parsed from the contents. -/
theorem C3_read_or_parse_failure_is_error (w : World) (tests : Directory) (tr : List Step)
    (venom testContainer : Container)
    (hbuild : Venom w = (tr, .returns (some venom, none)))
    (hsync : w.Sync (Test.execContainer venom tests) = .ok testContainer) :
    ∃ r err, (Test w tests).2 = .returns (r, err) ∧
      (err ≠ none ↔
        ((∃ e, w.Contents (.ofContainer testContainer "/workdir/exit_code") = .error e) ∨
          ∃ data, w.Contents (.ofContainer testContainer "/workdir/exit_code") = .ok data ∧
            (Atoi w.IntSize data).2 ≠ none)) ∧
      (err = none →
        ∃ data, w.Contents (.ofContainer testContainer "/workdir/exit_code") = .ok data ∧
          Atoi w.IntSize data = (r.ExitCode, none)) ∧
      (Atoi w.IntSize []).2 ≠ none ∧ (Atoi w.IntSize (bytes "0\n")).2 ≠ none ∧
      (Atoi w.IntSize (bytes "abc")).2 ≠ none := by
  unfold Test
  rw [hbuild]
  simp only []
  rw [hsync]
  simp only [exitCodePath_eq]
  cases hc : w.Contents (.ofContainer testContainer "/workdir/exit_code") with
  | error e =>
      refine ⟨_, _, rfl, ?_, ?_, Atoi_empty _, Atoi_trailing_newline _, Atoi_non_digit _⟩
      · simp
      · simp
  | ok data =>
      dsimp only
      rcases ha : Atoi w.IntSize data with ⟨v, _ | e⟩
      · refine ⟨_, _, rfl, ?_, ?_, Atoi_empty _, Atoi_trailing_newline _, Atoi_non_digit _⟩
        · simp [ha]
        · simp [ha]
      · refine ⟨_, _, rfl, ?_, ?_, Atoi_empty _, Atoi_trailing_newline _, Atoi_non_digit _⟩
        · simp [ha]
        · simp

/-- Witness of C3 in a sample world whose exit-code file ends in a newline. -/
theorem C3_read_or_parse_failure_is_error_witness :
    ∃ r err,
      (Test (sampleWorld (.ok sampleGoMod) (.ok sampleModFile) none (.ok (bytes "0\n")))
        (.caller 0)).2 = .returns (r, err) ∧ err ≠ none := by
  obtain ⟨r, err, h1, h2, _⟩ :=
    C3_read_or_parse_failure_is_error
      (sampleWorld (.ok sampleGoMod) (.ok sampleModFile) none (.ok (bytes "0\n")))
      (.caller 0) _ sampleVenom _ rfl rfl
  exact ⟨r, err, h1, h2.mpr (Or.inr ⟨bytes "0\n", rfl, Atoi_trailing_newline 64⟩)⟩

/-- C4: each of the four failing steps of `Test` (image build, `Sync`, read of the
exit-code file, parse of the exit code) yields a non-nil error with the zero
`TestResults`, and the calls made stop at the failing step. -/
theorem C4_no_partial_results (w : World) (tests : Directory) :
    (∀ tr c e, Venom w = (tr, .returns (c, some e)) →
      Test w tests =
        (tr, .returns (TestResults.zero,
          some (Errorf w.Quote "error building venom container" e)))) ∧
    (∀ tr venom e, Venom w = (tr, .returns (some venom, none)) →
      w.Sync (Test.execContainer venom tests) = .error e →
      Test w tests =
        (tr ++ [.Sync (Test.execContainer venom tests)],
          .returns (TestResults.zero,
            some (Errorf w.Quote "unexpected error executing tests" e)))) ∧
    (∀ tr venom testContainer e, Venom w = (tr, .returns (some venom, none)) →
      w.Sync (Test.execContainer venom tests) = .ok testContainer →
      w.Contents (.ofContainer testContainer "/workdir/exit_code") = .error e →
      Test w tests =
        (tr ++ [.Sync (Test.execContainer venom tests),
                .Contents (.ofContainer testContainer "/workdir/exit_code")],
          .returns (TestResults.zero,
            some (Errorf w.Quote "could not get error code from test command" e)))) ∧
    (∀ tr venom testContainer data v e, Venom w = (tr, .returns (some venom, none)) →
      w.Sync (Test.execContainer venom tests) = .ok testContainer →
      w.Contents (.ofContainer testContainer "/workdir/exit_code") = .ok data →
      Atoi w.IntSize data = (v, some e) →
      Test w tests =
        (tr ++ [.Sync (Test.execContainer venom tests),
                .Contents (.ofContainer testContainer "/workdir/exit_code"), .Atoi data],
          .returns (TestResults.zero,
            some (Errorf w.Quote "invalid exit code for tests" e)))) ∧
    TestResults.zero = { ResultsDir := none, ExitCode := 0 } := by
  exact ⟨fun tr c e hb => Test_build_error w tests tr c e hb,
    fun tr venom e hb hs => Test_sync_error w tests tr venom e hb hs,
    fun tr venom testContainer e hb hs hc => Test_read_error w tests tr venom testContainer e hb hs hc,
    fun tr venom testContainer data v e hb hs hc ha =>
      Test_parse_error w tests tr venom testContainer data v e hb hs hc ha,
    rfl⟩

/-- Witness of C4: one sample world for each of the four failing steps. -/
theorem C4_no_partial_results_witness :
    Test (sampleWorld (.error (sampleError 0)) (.ok sampleModFile) none (.ok (bytes "0")))
        (.caller 0) =
      ([.Contents (.ofDirectory Venom.venomSrc "go.mod")],
        .returns (TestResults.zero,
          some (Errorf sampleQuote "error building venom container"
            (Errorf sampleQuote "error reading go.mod" (sampleError 0))))) ∧
    Test (sampleWorld (.ok sampleGoMod) (.ok sampleModFile) (some (sampleError 1))
        (.ok (bytes "0"))) (.caller 0) =
      ([.Contents (.ofDirectory Venom.venomSrc "go.mod"), .ParseLax "go.mod" sampleGoMod,
        .Sync (Test.execContainer sampleVenom (.caller 0))],
        .returns (TestResults.zero,
          some (Errorf sampleQuote "unexpected error executing tests" (sampleError 1)))) ∧
    Test (sampleWorld (.ok sampleGoMod) (.ok sampleModFile) none (.error (sampleError 2)))
        (.caller 0) =
      ([.Contents (.ofDirectory Venom.venomSrc "go.mod"), .ParseLax "go.mod" sampleGoMod,
        .Sync (Test.execContainer sampleVenom (.caller 0)),
        .Contents (.ofContainer (Test.execContainer sampleVenom (.caller 0)) "/workdir/exit_code")],
        .returns (TestResults.zero,
          some (Errorf sampleQuote "could not get error code from test command"
            (sampleError 2)))) ∧
    Test (sampleWorld (.ok sampleGoMod) (.ok sampleModFile) none (.ok (bytes "0\n")))
        (.caller 0) =
      ([.Contents (.ofDirectory Venom.venomSrc "go.mod"), .ParseLax "go.mod" sampleGoMod,
        .Sync (Test.execContainer sampleVenom (.caller 0)),
        .Contents (.ofContainer (Test.execContainer sampleVenom (.caller 0)) "/workdir/exit_code"),
        .Atoi (bytes "0\n")],
        .returns (TestResults.zero,
          some (Errorf sampleQuote "invalid exit code for tests"
            (syntaxError "Atoi" (bytes "0\n"))))) :=
  ⟨(C4_no_partial_results _ (.caller 0)).1 _ none _ rfl,
   (C4_no_partial_results _ (.caller 0)).2.1 _ sampleVenom _ rfl rfl,
   (C4_no_partial_results _ (.caller 0)).2.2.1 _ sampleVenom _ _ rfl rfl rfl,
   (C4_no_partial_results _ (.caller 0)).2.2.2.1 _ sampleVenom _ _ 0 _ rfl rfl rfl (by decide)⟩

/-- C5: when `modfile.ParseLax` rejects the contents of go.mod, `Venom` returns a
nil container and an error that wraps the parse error, with the message
`error parsing go.mod: ` followed by the message of the parse error; when go.mod
cannot be read, it returns a nil container and an error that wraps the read error,
with the message `error reading go.mod: ` followed by the message of the read
error.  In both cases no call follows the failing one. -/
theorem C5_manifest_errors (w : World) :
    (∀ data e, w.Contents (.ofDirectory Venom.venomSrc "go.mod") = .ok data →
      w.ParseLax "go.mod" data = .error e →
      ∃ err, Venom w =
          ([.Contents (.ofDirectory Venom.venomSrc "go.mod"), .ParseLax "go.mod" data],
            .returns (none, some err)) ∧
        err.Unwrap = some e ∧
        err.Error w.Quote = "error parsing go.mod: " ++ e.Error w.Quote) ∧
    (∀ e, w.Contents (.ofDirectory Venom.venomSrc "go.mod") = .error e →
      ∃ err, Venom w =
          ([.Contents (.ofDirectory Venom.venomSrc "go.mod")], .returns (none, some err)) ∧
        err.Unwrap = some e ∧
        err.Error w.Quote = "error reading go.mod: " ++ e.Error w.Quote) := by
  constructor
  · intro data e hc hp
    exact ⟨_, Venom_parse_error w data e hc hp, rfl, rfl⟩
  · intro e hc
    exact ⟨_, Venom_read_error w e hc, rfl, rfl⟩

/-- Witness of C5: a sample world where `ParseLax` returns an `ErrorList` and one
where go.mod cannot be read. -/
theorem C5_manifest_errors_witness :
    (∃ err, Venom (sampleWorld (.ok sampleGoMod) (.error sampleParseError) none (.ok [])) =
        ([.Contents (.ofDirectory Venom.venomSrc "go.mod"), .ParseLax "go.mod" sampleGoMod],
          .returns (none, some err)) ∧
      err.Unwrap = some sampleParseError ∧
      err.Error sampleQuote = "error parsing go.mod: " ++ sampleParseError.Error sampleQuote) ∧
    (∃ err, Venom (sampleWorld (.error (sampleError 4)) (.ok sampleModFile) none (.ok [])) =
        ([.Contents (.ofDirectory Venom.venomSrc "go.mod")], .returns (none, some err)) ∧
      err.Unwrap = some (sampleError 4) ∧
      err.Error sampleQuote = "error reading go.mod: " ++ (sampleError 4).Error sampleQuote) :=
  ⟨(C5_manifest_errors (sampleWorld (.ok sampleGoMod) (.error sampleParseError) none (.ok []))).1
      sampleGoMod sampleParseError rfl rfl,
   (C5_manifest_errors (sampleWorld (.error (sampleError 4)) (.ok sampleModFile) none (.ok []))).2
      (sampleError 4) rfl⟩

/-! ## Wrapping of causes -/

theorem atoiLoop_error (s0 : Bytes) : ∀ (s : Bytes) (n v : Int) (e : GoError),
    atoiLoop s0 s n = (v, some e) → e.comparable = true := by
  intro s
  induction s with
  | nil => intro n v e h; simp [atoiLoop] at h
  | cons c cs ih =>
      intro n v e h
      rw [atoiLoop] at h
      split_ifs at h
      · simp only [Prod.mk.injEq, Option.some.injEq] at h
        rw [← h.2]
        rfl
      · exact ih _ _ _ h

theorem ParseInt_error (k : Nat) (s : Bytes) (v : Int) (e : GoError)
    (h : ParseInt k s 0 = (v, some e)) : e.comparable = true := by
  unfold ParseInt at h
  cases s with
  | nil =>
      simp only [Prod.mk.injEq, Option.some.injEq] at h
      rw [← h.2]; rfl
  | cons c cs =>
      dsimp only at h
      generalize ParseUint k _ 0 = r at h
      obtain ⟨un, err⟩ := r
      dsimp only at h
      split_ifs at h <;>
        first
        | (obtain ⟨-, h2⟩ := Prod.mk.inj h
           rw [← Option.some.inj h2]
           rfl)
        | simp at h

theorem Atoi_error_comparable (k : Nat) (s : Bytes) (v : Int) (e : GoError)
    (h : Atoi k s = (v, some e)) : e.comparable = true := by
  unfold Atoi at h
  dsimp only at h
  by_cases hc : (k = 32 ∧ (0 < s.length ∧ s.length < 10)) ∨ (k = 64 ∧ (0 < s.length ∧ s.length < 19))
  · rw [if_pos hc] at h
    cases s with
    | nil =>
        simp only [Prod.mk.injEq, Option.some.injEq] at h
        rw [← h.2]; rfl
    | cons c cs =>
        dsimp only at h
        generalize hl : atoiLoop (c :: cs) _ 0 = r at h
        obtain ⟨n, _ | err⟩ := r
        · split_ifs at h <;>
            first
            | (obtain ⟨-, h2⟩ := Prod.mk.inj h
               rw [← Option.some.inj h2]
               rfl)
            | simp at h
        · split_ifs at h <;>
            (try dsimp only at h
             obtain ⟨-, h2⟩ := Prod.mk.inj h
             rw [← Option.some.inj h2]
             first
             | rfl
             | exact atoiLoop_error _ _ _ _ _ hl)
  · rw [if_neg hc] at h
    generalize hp : ParseInt k s 0 = r at h
    obtain ⟨i64, _ | err⟩ := r
    · simp at h
    · have hcmp := ParseInt_error k s i64 err hp
      cases err with
      | errorString id m =>
          simp only [Prod.mk.injEq, Option.some.injEq] at h
          rw [← h.2]; rfl
      | ErrorList errs => simp [GoError.comparable] at hcmp
      | NumError f n x =>
          simp only [Prod.mk.injEq, Option.some.injEq] at h
          rw [← h.2]; rfl
      | wrapError m x =>
          simp only [Prod.mk.injEq, Option.some.injEq] at h
          rw [← h.2]; rfl

/-- C6, as amended: every error returned by `Venom` or `Test` wraps its cause.  For
each failing step with underlying error `e`, `Unwrap` of the returned error is `e`
(for a manifest error, `Unwrap` of the error of `Test` is the error of `Venom`, whose
`Unwrap` is `e`), the message is the text naming the step followed by the message
of `e`, and `errors.Is(returned, e)` holds when the type of `e` is comparable, as it
always is for the error of `strconv.Atoi`. -/
theorem C6_errors_wrap_cause (w : World) (tests : Directory) :
    (∀ e, w.Contents (.ofDirectory Venom.venomSrc "go.mod") = .error e →
      ∃ v t, (Venom w).2 = .returns (none, some v) ∧
        (Test w tests).2 = .returns (TestResults.zero, some t) ∧
        v.Unwrap = some e ∧ t.Unwrap = some v ∧ Is t v = true ∧
        (e.comparable = true → Is v e = true ∧ Is t e = true) ∧
        v.Error w.Quote = "error reading go.mod: " ++ e.Error w.Quote ∧
        t.Error w.Quote =
          "error building venom container: " ++ ("error reading go.mod: " ++ e.Error w.Quote)) ∧
    (∀ data e, w.Contents (.ofDirectory Venom.venomSrc "go.mod") = .ok data →
      w.ParseLax "go.mod" data = .error e →
      ∃ v t, (Venom w).2 = .returns (none, some v) ∧
        (Test w tests).2 = .returns (TestResults.zero, some t) ∧
        v.Unwrap = some e ∧ t.Unwrap = some v ∧ Is t v = true ∧
        (e.comparable = true → Is v e = true ∧ Is t e = true) ∧
        v.Error w.Quote = "error parsing go.mod: " ++ e.Error w.Quote ∧
        t.Error w.Quote =
          "error building venom container: " ++ ("error parsing go.mod: " ++ e.Error w.Quote)) ∧
    (∀ tr venom e, Venom w = (tr, .returns (some venom, none)) →
      w.Sync (Test.execContainer venom tests) = .error e →
      ∃ t, (Test w tests).2 = .returns (TestResults.zero, some t) ∧ t.Unwrap = some e ∧
        (e.comparable = true → Is t e = true) ∧
        t.Error w.Quote = "unexpected error executing tests: " ++ e.Error w.Quote) ∧
    (∀ tr venom testContainer e, Venom w = (tr, .returns (some venom, none)) →
      w.Sync (Test.execContainer venom tests) = .ok testContainer →
      w.Contents (.ofContainer testContainer "/workdir/exit_code") = .error e →
      ∃ t, (Test w tests).2 = .returns (TestResults.zero, some t) ∧ t.Unwrap = some e ∧
        (e.comparable = true → Is t e = true) ∧
        t.Error w.Quote = "could not get error code from test command: " ++ e.Error w.Quote) ∧
    (∀ tr venom testContainer data v e, Venom w = (tr, .returns (some venom, none)) →
      w.Sync (Test.execContainer venom tests) = .ok testContainer →
      w.Contents (.ofContainer testContainer "/workdir/exit_code") = .ok data →
      Atoi w.IntSize data = (v, some e) →
      ∃ t, (Test w tests).2 = .returns (TestResults.zero, some t) ∧ t.Unwrap = some e ∧
        Is t e = true ∧
        t.Error w.Quote = "invalid exit code for tests: " ++ e.Error w.Quote) := by
  refine ⟨?_, ?_, ?_, ?_, ?_⟩
  · intro e hc
    have hv := Venom_read_error w e hc
    refine ⟨Errorf w.Quote "error reading go.mod" e,
      Errorf w.Quote "error building venom container" (Errorf w.Quote "error reading go.mod" e),
      by rw [hv], by rw [Test_build_error w tests _ _ _ hv], rfl, rfl, ?_, ?_, rfl, rfl⟩
    · exact Is_Errorf _ _ _ _ (Is_self _ rfl)
    · intro he
      exact ⟨Is_Errorf _ _ _ _ (Is_self e he),
        Is_Errorf _ _ _ _ (Is_Errorf _ _ _ _ (Is_self e he))⟩
  · intro data e hc hp
    have hv := Venom_parse_error w data e hc hp
    refine ⟨Errorf w.Quote "error parsing go.mod" e,
      Errorf w.Quote "error building venom container" (Errorf w.Quote "error parsing go.mod" e),
      by rw [hv], by rw [Test_build_error w tests _ _ _ hv], rfl, rfl, ?_, ?_, rfl, rfl⟩
    · exact Is_Errorf _ _ _ _ (Is_self _ rfl)
    · intro he
      exact ⟨Is_Errorf _ _ _ _ (Is_self e he),
        Is_Errorf _ _ _ _ (Is_Errorf _ _ _ _ (Is_self e he))⟩
  · intro tr venom e hb hs
    exact ⟨Errorf w.Quote "unexpected error executing tests" e,
      by rw [Test_sync_error w tests tr venom e hb hs], rfl,
      fun he => Is_Errorf _ _ _ _ (Is_self e he), rfl⟩
  · intro tr venom testContainer e hb hs hc
    exact ⟨Errorf w.Quote "could not get error code from test command" e,
      by rw [Test_read_error w tests tr venom testContainer e hb hs hc], rfl,
      fun he => Is_Errorf _ _ _ _ (Is_self e he), rfl⟩
  · intro tr venom testContainer data v e hb hs hc ha
    exact ⟨Errorf w.Quote "invalid exit code for tests" e,
      by rw [Test_parse_error w tests tr venom testContainer data v e hb hs hc ha], rfl,
      Is_Errorf _ _ _ _ (Is_self e (Atoi_error_comparable _ _ _ _ ha)), rfl⟩

/-- Witness of C6: the double wrapping of a manifest read error, and the wrapping
of the `Atoi` error for an exit-code file that ends in a newline. -/
theorem C6_errors_wrap_cause_witness :
    (∃ v t,
      (Venom (sampleWorld (.error (sampleError 5)) (.ok sampleModFile) none (.ok []))).2 =
        .returns (none, some v) ∧
      (Test (sampleWorld (.error (sampleError 5)) (.ok sampleModFile) none (.ok []))
        (.caller 0)).2 = .returns (TestResults.zero, some t) ∧
      v.Unwrap = some (sampleError 5) ∧ t.Unwrap = some v ∧ Is t v = true ∧
      Is v (sampleError 5) = true ∧ Is t (sampleError 5) = true ∧
      t.Error sampleQuote =
        "error building venom container: " ++
          ("error reading go.mod: " ++ (sampleError 5).Error sampleQuote)) ∧
    (∃ t,
      (Test (sampleWorld (.ok sampleGoMod) (.ok sampleModFile) none (.ok (bytes "0\n")))
        (.caller 0)).2 = .returns (TestResults.zero, some t) ∧
      t.Unwrap = some (syntaxError "Atoi" (bytes "0\n")) ∧
      Is t (syntaxError "Atoi" (bytes "0\n")) = true ∧
      t.Error sampleQuote =
        "invalid exit code for tests: " ++ (syntaxError "Atoi" (bytes "0\n")).Error sampleQuote) := by
  obtain ⟨v, t, h1, h2, h3, h4, h5, h6, _, h8⟩ :=
    (C6_errors_wrap_cause (sampleWorld (.error (sampleError 5)) (.ok sampleModFile) none (.ok []))
      (.caller 0)).1 (sampleError 5) rfl
  exact ⟨⟨v, t, h1, h2, h3, h4, h5, (h6 rfl).1, (h6 rfl).2, h8⟩,
    (C6_errors_wrap_cause (sampleWorld (.ok sampleGoMod) (.ok sampleModFile) none
      (.ok (bytes "0\n"))) (.caller 0)).2.2.2.2 _ sampleVenom _ (bytes "0\n") 0 _ rfl rfl rfl
      (by decide)⟩

/-- C6 as stated fails: when `modfile.ParseLax` rejects go.mod, its error is a
`modfile.ErrorList`, whose type is not comparable; `Venom` and `Test` wrap it, yet
`errors.Is(returned, e)` is false for the error of `Venom` and for that of `Test`. -/
theorem C6_parse_error_not_found_by_Is :
    (Venom (sampleWorld (.ok sampleGoMod) (.error sampleParseError) none (.ok []))).2 =
        .returns (none, some (Errorf sampleQuote "error parsing go.mod" sampleParseError)) ∧
      (Test (sampleWorld (.ok sampleGoMod) (.error sampleParseError) none (.ok []))
          (.caller 0)).2 =
        .returns (TestResults.zero,
          some (Errorf sampleQuote "error building venom container"
            (Errorf sampleQuote "error parsing go.mod" sampleParseError))) ∧
      (Errorf sampleQuote "error parsing go.mod" sampleParseError).Unwrap
        = some sampleParseError ∧
      Is (Errorf sampleQuote "error parsing go.mod" sampleParseError) sampleParseError = false ∧
      Is (Errorf sampleQuote "error building venom container"
          (Errorf sampleQuote "error parsing go.mod" sampleParseError)) sampleParseError
        = false :=
  ⟨rfl, rfl, rfl, Is_of_not_comparable _ _ rfl, Is_of_not_comparable _ _ rfl⟩

/-! ## The wildcard of the command -/

theorem mem_expandPathname_tests (fs : FS) (name : String)
    (hmem : name ∈ fs.entries "/workdir/tests")
    (hm : matchName ("*.y*ml").data name.data = true) :
    "./tests/" ++ name ∈ expandPathname "/workdir" fs "./tests/*.y*ml" := by
  have hany : (("./tests/*.y*ml").data.any fun c => decide (c = '*' ∨ c = '?')) = true := by
    decide
  have hsplit : splitLastSlash ("./tests/*.y*ml").data = (("./tests/").data, ("*.y*ml").data) := by
    decide
  have hdir : resolvePath "/workdir" (String.mk ("./tests/").data) = "/workdir/tests" := by
    decide
  have hne : ("./tests/").data ≠ [] := by decide
  have hin : name ∈ (fs.entries "/workdir/tests").filter
      (fun name => matchName ("*.y*ml").data name.data) := by
    rw [List.mem_filter]
    exact ⟨hmem, hm⟩
  unfold expandPathname
  rw [if_pos hany]
  simp only [hsplit, if_neg hne, hdir]
  rw [if_neg (List.ne_nil_of_mem hin)]
  exact List.mem_map.mpr ⟨name, hin, rfl⟩

theorem globMatch_yml (pre : List Char) :
    globMatch ("*.y*ml").data (pre ++ (".yml").data) = true :=
  globMatch_star_append _ pre _ (by decide)

theorem globMatch_yaml (pre : List Char) :
    globMatch ("*.y*ml").data (pre ++ (".yaml").data) = true :=
  globMatch_star_append _ pre _ (by decide)

/-- C7, as amended: for every file name directly in the mounted tests directory that
does not begin with a period and ends in `.yml` or `.yaml`, the pattern `*.y*ml` of
the command matches the name, and `./tests/` followed by the name is among the
arguments of `/usr/local/venom run`. -/
theorem C7_wildcard_matches_visible_yaml (run : Program) (fs : FS) (venom : Container)
    (tests : Directory) (name : String)
    (hmem : name ∈ fs.entries Test.testsPath)
    (hvis : name.data.head? ≠ some '.')
    (hext : (".yml").data <:+ name.data ∨ (".yaml").data <:+ name.data) :
    matchName ("*.y*ml").data name.data = true ∧
      ∃ st argv, (Test.execContainer venom tests).exec run fs = some st ∧
        st.started = [argv] ∧ argv.take 2 = ["/usr/local/venom", "run"] ∧
        "./tests/" ++ name ∈ argv := by
  have hm : matchName ("*.y*ml").data name.data = true := by
    rw [matchName_of_not_dot _ _ hvis]
    rcases hext with ⟨pre, h⟩ | ⟨pre, h⟩
    · rw [← h]; exact globMatch_yml pre
    · rw [← h]; exact globMatch_yaml pre
  rw [testsPath_eq] at hmem
  refine ⟨hm, _, _, exec_execContainer run fs venom tests, rfl, rfl, ?_⟩
  have := mem_expandPathname_tests fs name hmem hm
  simp [this]

/-- Witness of C7: the visible file `suite.yml` of the sample directory. -/
theorem C7_wildcard_matches_visible_yaml_witness :
    matchName ("*.y*ml").data ("suite.yml").data = true ∧
      ∃ st argv, (Test.execContainer sampleVenom (.caller 0)).exec (sampleProgram 0) sampleFS
          = some st ∧
        st.started = [argv] ∧ argv.take 2 = ["/usr/local/venom", "run"] ∧
        "./tests/" ++ "suite.yml" ∈ argv :=
  C7_wildcard_matches_visible_yaml (sampleProgram 0) sampleFS sampleVenom (.caller 0) "suite.yml"
    (by decide) (by decide) (Or.inl ⟨("suite").data, rfl⟩)

/-- C7 as stated fails: the file `.hidden.yml` lies directly in the tests directory
and ends in `.yml`, yet the pattern does not match it and `venom run` receives only
`./tests/suite.yml`. -/
theorem C7_hidden_file_not_matched :
    ".hidden.yml" ∈ sampleFS.entries Test.testsPath ∧
      (".yml").data <:+ (".hidden.yml").data ∧
      matchName ("*.y*ml").data (".hidden.yml").data = false ∧
      ∃ st, (Test.execContainer sampleVenom (.caller 0)).exec (sampleProgram 0) sampleFS
          = some st ∧
        st.started = [["/usr/local/venom", "run", "./tests/suite.yml", "--html-report"]] ∧
        ¬ ∃ argv ∈ st.started, "./tests/" ++ ".hidden.yml" ∈ argv := by
  refine ⟨by decide, ⟨(".hidden").data, rfl⟩, by decide, _,
    exec_execContainer (sampleProgram 0) sampleFS sampleVenom (.caller 0), ?_, ?_⟩
  · decide
  · decide

/-! ## The execution container -/

theorem Venom_image (w : World) (tr : List Step) (venom : Container)
    (hb : Venom w = (tr, .returns (some venom, none))) :
    ∃ f, venom =
      Container.WithFile (Container.From Container.scratch "alpine:latest") "/usr/local/venom" f := by
  unfold Venom at hb
  simp only [] at hb
  split at hb
  · simp at hb
  · split at hb
    · simp at hb
    · split at hb
      · simp at hb
      · simp only [Prod.mk.injEq, Outcome.returns.injEq, Option.some.injEq, and_true] at hb
        exact ⟨_, hb.2.symm⟩

theorem Test_trace_of_build (w : World) (tests : Directory) (tr : List Step) (venom : Container)
    (hb : Venom w = (tr, .returns (some venom, none))) :
    ∃ rest, (Test w tests).1 = tr ++ Step.Sync (Test.execContainer venom tests) :: rest := by
  unfold Test
  rw [hb]
  dsimp only
  cases w.Sync (Test.execContainer venom tests) with
  | error e => exact ⟨_, rfl⟩
  | ok tc =>
      dsimp only
      cases w.Contents (File.ofContainer tc (Join [Test.workDir, Test.exitCodeFile])) with
      | error e => exact ⟨_, rfl⟩
      | ok data =>
          dsimp only
          rcases Atoi w.IntSize data with ⟨v, _ | e⟩
          · exact ⟨_, rfl⟩
          · exact ⟨_, rfl⟩

theorem Test_success (w : World) (tests : Directory) (tr : List Step) (venom : Container)
    (r : TestResults) (hb : Venom w = (tr, .returns (some venom, none)))
    (hr : (Test w tests).2 = .returns (r, none)) :
    ∃ tc, w.Sync (Test.execContainer venom tests) = .ok tc ∧
      r.ResultsDir = some (.ofContainer tc "/workdir/results") ∧
      (Step.Contents (.ofContainer tc "/workdir/exit_code")) ∈ (Test w tests).1 := by
  unfold Test at hr ⊢
  rw [hb] at hr ⊢
  dsimp only at hr ⊢
  cases hs : w.Sync (Test.execContainer venom tests) with
  | error e => rw [hs] at hr; simp at hr
  | ok tc =>
      rw [hs] at hr
      simp only [exitCodePath_eq, resultsPath_eq] at hr ⊢
      cases hc : w.Contents (File.ofContainer tc "/workdir/exit_code") with
      | error e => rw [hc] at hr; simp at hr
      | ok data =>
          rw [hc] at hr
          dsimp only at hr ⊢
          rcases ha : Atoi w.IntSize data with ⟨v, _ | e⟩
          · rw [ha] at hr
            simp only [Outcome.returns.injEq, Prod.mk.injEq, and_true] at hr
            refine ⟨tc, rfl, ?_, ?_⟩
            · rw [← hr]
            · simp
          · rw [ha] at hr
            simp at hr

/-- C8: the container `Test` hands to `Sync` has exactly three environment
variables set on it, with fixed values whatever the caller's directory:
`VENOM_OUTPUT_DIR` is `/workdir/results`, the path of the directory returned as
`ResultsDir`; `VENOM_LIB_DIR` is `/workdir/tests/lib`, the `lib` subdirectory of
`/workdir/tests`, where the caller's directory is mounted; `VENOM_VERBOSE` is `1`. -/
theorem C8_environment_variables (w : World) (tests : Directory) (tr : List Step)
    (venom : Container) (hbuild : Venom w = (tr, .returns (some venom, none))) :
    (∃ rest, (Test w tests).1 = tr ++ Step.Sync (Test.execContainer venom tests) :: rest) ∧
      (Test.execContainer venom tests).envVariables =
        [("VENOM_OUTPUT_DIR", "/workdir/results"), ("VENOM_LIB_DIR", "/workdir/tests/lib"),
         ("VENOM_VERBOSE", "1")] ∧
      (Test.execContainer venom tests).mounts = [("/workdir/tests", tests)] ∧
      Join ["/workdir/tests", "lib"] = "/workdir/tests/lib" ∧
      (∀ r, (Test w tests).2 = .returns (r, none) →
        ∃ tc, w.Sync (Test.execContainer venom tests) = .ok tc ∧
          r.ResultsDir = some (.ofContainer tc "/workdir/results")) := by
  obtain ⟨f, rfl⟩ := Venom_image w tr venom hbuild
  refine ⟨Test_trace_of_build w tests tr _ hbuild, ?_, ?_, by decide, ?_⟩
  · have h1 : Test.resultsPath = "/workdir/results" := resultsPath_eq
    have h2 : Join [Test.testsPath, "lib"] = "/workdir/tests/lib" := by decide
    simp [Test.execContainer, Container.envVariables, h1, h2]
  · have h1 : Test.testsPath = "/workdir/tests" := testsPath_eq
    simp [Test.execContainer, Container.mounts, h1]
  · intro r hr
    obtain ⟨tc, h1, h2, _⟩ := Test_success w tests tr _ r hbuild hr
    exact ⟨tc, h1, h2⟩

/-- Witness of C8 in a sample world. -/
theorem C8_environment_variables_witness :
    (Test.execContainer sampleVenom (.caller 7)).envVariables =
        [("VENOM_OUTPUT_DIR", "/workdir/results"), ("VENOM_LIB_DIR", "/workdir/tests/lib"),
         ("VENOM_VERBOSE", "1")] ∧
      (Test.execContainer sampleVenom (.caller 7)).mounts = [("/workdir/tests", .caller 7)] :=
  ⟨(C8_environment_variables
      (sampleWorld (.ok sampleGoMod) (.ok sampleModFile) none (.ok (bytes "0"))) (.caller 7) _
      sampleVenom rfl).2.1,
   (C8_environment_variables
      (sampleWorld (.ok sampleGoMod) (.ok sampleModFile) none (.ok (bytes "0"))) (.caller 7) _
      sampleVenom rfl).2.2.1⟩

theorem Venom_panics_without_go (w : World) (data : Bytes)
    (hc : w.Contents (.ofDirectory Venom.venomSrc "go.mod") = .ok data)
    (hp : w.ParseLax "go.mod" data = .ok { Go := none }) :
    (Venom w).2 = .panics nilDereference := by
  unfold Venom
  simp only []
  rw [hc]
  simp only []
  rw [hp]

/-- C9 fails on the code: for a go.mod that parses and has no `go` statement (the
field `Go` of the parsed file is nil), `Venom` dereferences the nil pointer and
panics, so it returns neither a container nor an error, and `Test` panics with it. -/
theorem C9_missing_go_statement_panics :
    (Venom (sampleWorld (.ok goModWithoutGo) (.ok { Go := none }) none (.ok []))).2 =
        .panics nilDereference ∧
      (Test (sampleWorld (.ok goModWithoutGo) (.ok { Go := none }) none (.ok [])) (.caller 0)).2 =
        .panics nilDereference :=
  ⟨rfl, rfl⟩

theorem Test_reads_exit_code (w : World) (tests : Directory) (tr : List Step)
    (venom tc : Container) (hb : Venom w = (tr, .returns (some venom, none)))
    (hs : w.Sync (Test.execContainer venom tests) = .ok tc) :
    (Step.Contents (.ofContainer tc "/workdir/exit_code")) ∈ (Test w tests).1 := by
  unfold Test
  rw [hb]
  dsimp only
  rw [hs]
  simp only [exitCodePath_eq]
  cases w.Contents (File.ofContainer tc "/workdir/exit_code") with
  | error e => simp
  | ok data =>
      dsimp only
      rcases Atoi w.IntSize data with ⟨v, _ | e⟩
      · simp
      · simp

/-- C10: the command of `Test` redirects `$?` to the relative path `exit_code`;
seen from the working directory `/workdir` of the container this is
`filepath.Join("/workdir", "exit_code") = "/workdir/exit_code"`, the file `Test`
reads and the file the command writes; and the directory `./tests/` of the wildcard
is `/workdir/tests`, where the caller's directory is mounted. -/
theorem C10_paths_agree (w : World) (tests : Directory) (tr : List Step)
    (venom tc : Container) (run : Program) (fs : FS)
    (hbuild : Venom w = (tr, .returns (some venom, none)))
    (hsync : w.Sync (Test.execContainer venom tests) = .ok tc) :
    (∃ command c1 c2, (Test.execContainer venom tests).lastExec = some ["/bin/sh", "-c", command] ∧
        splitOn ';' command.data = [c1, c2] ∧ "./tests/*.y*ml" ∈ words c1 ∧
        (splitRedirect (words c2)).2 = some "exit_code") ∧
      (Test.execContainer venom tests).workdir = "/workdir" ∧
      resolvePath "/workdir" "exit_code" = Join [Test.workDir, Test.exitCodeFile] ∧
      Join [Test.workDir, Test.exitCodeFile] = "/workdir/exit_code" ∧
      (Step.Contents (.ofContainer tc "/workdir/exit_code")) ∈ (Test w tests).1 ∧
      (∃ st, (Test.execContainer venom tests).exec run fs = some st ∧
        st.fs.file "/workdir/exit_code" ≠ none) ∧
      resolvePath "/workdir" "./tests/" = Test.testsPath ∧
      Test.testsPath = "/workdir/tests" ∧
      (Test.testsPath, tests) ∈ (Test.execContainer venom tests).mounts := by
  refine ⟨⟨_, _, _, rfl, splitOn_testCommand, by decide, by decide⟩, rfl, by decide, by decide,
    Test_reads_exit_code w tests tr venom tc hbuild hsync,
    ⟨_, exec_execContainer run fs venom tests, ?_⟩, by decide, by decide, ?_⟩
  · simp [FS.write]
  · simp [Test.execContainer, Container.mounts]

/-- Witness of C10 in a sample world. -/
theorem C10_paths_agree_witness :
    (Step.Contents (.ofContainer (Test.execContainer sampleVenom (.caller 0)) "/workdir/exit_code"))
        ∈ (Test (sampleWorld (.ok sampleGoMod) (.ok sampleModFile) none (.ok (bytes "0")))
            (.caller 0)).1 ∧
      ∃ st, (Test.execContainer sampleVenom (.caller 0)).exec (sampleProgram 0) sampleFS = some st ∧
        st.fs.file "/workdir/exit_code" ≠ none :=
  ⟨(C10_paths_agree (sampleWorld (.ok sampleGoMod) (.ok sampleModFile) none (.ok (bytes "0")))
      (.caller 0) _ sampleVenom _ (sampleProgram 0) sampleFS rfl rfl).2.2.2.2.1,
   (C10_paths_agree (sampleWorld (.ok sampleGoMod) (.ok sampleModFile) none (.ok (bytes "0")))
      (.caller 0) _ sampleVenom _ (sampleProgram 0) sampleFS rfl rfl).2.2.2.2.2.1⟩

/-! ## Boundary cases recorded for reference -/

theorem Atoi_out_of_range :
    Atoi 64 (decimal (2 ^ 63)) = (2 ^ 63 - 1, some (rangeError "Atoi" (decimal (2 ^ 63)))) := by
  decide

theorem Venom_with_go (w : World) (data : Bytes) (go : Go)
    (hc : w.Contents (.ofDirectory Venom.venomSrc "go.mod") = .ok data)
    (hp : w.ParseLax "go.mod" data = .ok { Go := some go }) :
    (Venom w).2 =
      .returns
        (some (Container.WithFile (Container.From Container.scratch "alpine:latest")
          "/usr/local/venom"
          (File.ofDirectory
            (Directory.ofContainer
              (Container.WithExec
                (Container.WithWorkdir
                  (Container.WithDirectory
                    (Container.From Container.scratch ("golang:" ++ go.Version))
                    "/venom" Venom.venomSrc)
                  "/venom")
                ["make", "build", "OS=" ++ w.GOOS, "ARCH=" ++ w.GOARCH])
              "/venom/dist")
            ("venom." ++ w.GOOS ++ "-" ++ w.GOARCH))),
         none) := by
  have hj : Join [Venom.workDir, "dist"] = "/venom/dist" := by decide
  unfold Venom
  simp only []
  rw [hc]
  simp only []
  rw [hp]
  simp only [hj]
  rfl

end DaggerVenom
